import Mathlib

/-!
Verification of the Courgette rules compiler/validator (`src/compiler.js`,
`src/validator.js`).

`compiler.js` contains two near-duplicate compiler variants separated by a
document separator; definitions below carry the suffix `1` (first variant,
compiler.js lines 1-446) or `2` (second variant, compiler.js lines 447-1022).

The JavaScript works on strings via regular expressions.  The embedding keeps
documents as lists of raw line strings; inside a line, condition and outcome
phrases are handled as lists of whitespace-separated word tokens, which is
faithful for the regexes involved (they delimit groups by `\s+`, `\b` or
`\S`), up to collapsing of repeated whitespace inside a phrase.  JavaScript
numbers appearing in rules are decimal literals; they are modelled as `ℚ`
(with `none` playing the role of `NaN`), which is exact for the decimal
amounts the grammar accepts.
-/

namespace CourgetteRules

set_option maxRecDepth 16384

/-! ## String utilities (JS primitives used by both files) -/

/-- JS `\s` / `String.prototype.trim` whitespace (common ASCII cases). -/
def isWs (c : Char) : Bool :=
  c == ' ' || c == '\t' || c == '\n' || c == '\r' || c == '\x0b' || c == '\x0c'

/-- JS `\w` word characters `[A-Za-z0-9_]`. -/
def isWordChar (c : Char) : Bool :=
  c.isAlphanum || c == '_'

/-- JS `String.prototype.trim`. -/
def jsTrim (s : String) : String :=
  ⟨((s.data.dropWhile isWs).reverse.dropWhile isWs).reverse⟩

/-- `p` is a prefix of `s` (JS `String.prototype.startsWith`). -/
def strStarts (s p : String) : Bool :=
  p.data.isPrefixOf s.data

/-- `p` is a suffix of `s` (JS `String.prototype.endsWith`). -/
def strEnds (s p : String) : Bool :=
  p.data.reverse.isPrefixOf s.data.reverse

def listContainsSub (s p : List Char) : Bool :=
  match s with
  | [] => p.isEmpty
  | _ :: rest => p.isPrefixOf s || listContainsSub rest p

/-- `p` occurs as a contiguous substring of `s` (JS `String.prototype.includes`). -/
def strContains (s p : String) : Bool :=
  listContainsSub s.data p.data

/-- JS `String.prototype.toLowerCase` (ASCII). -/
def strLower (s : String) : String :=
  ⟨s.data.map Char.toLower⟩

/-- Split a character list on whitespace runs, dropping empty pieces
(JS `split(/\s+/)` on trimmed input). -/
def splitWsAux : List Char → List Char → List String
  | [], acc => if acc.isEmpty then [] else [⟨acc.reverse⟩]
  | c :: cs, acc =>
    if isWs c then
      if acc.isEmpty then splitWsAux cs [] else ⟨acc.reverse⟩ :: splitWsAux cs []
    else
      splitWsAux cs (c :: acc)

def splitWs (s : String) : List String := splitWsAux s.data []

/-- Split on a single character, keeping empty segments
(JS `String.prototype.split` with a one-character separator). -/
def splitCharAux (sep : Char) : List Char → List Char → List String
  | [], acc => [⟨acc.reverse⟩]
  | c :: cs, acc =>
    if c == sep then ⟨acc.reverse⟩ :: splitCharAux sep cs []
    else splitCharAux sep cs (c :: acc)

def splitLines (s : String) : List String := splitCharAux '\n' s.data []

/-- Join word tokens with single spaces (JS `Array.prototype.join(" ")`). -/
def joinSp : List String → String
  | [] => ""
  | [w] => w
  | w :: ws => w ++ " " ++ joinSp ws

/-- All maximal runs of `\w` characters inside a string, in order
(used for JS `match(/\b[a-zA-Z_]\w*\b/g)` and friends). -/
def wordRunsAux : List Char → List Char → List String
  | [], acc => if acc.isEmpty then [] else [⟨acc.reverse⟩]
  | c :: cs, acc =>
    if isWordChar c then wordRunsAux cs (c :: acc)
    else if acc.isEmpty then wordRunsAux cs [] else ⟨acc.reverse⟩ :: wordRunsAux cs []

def wordRuns (s : String) : List String := wordRunsAux s.data []

/-- A nonempty all-`\w` string whose first character is not a digit:
exactly the tokens the JS sources accept as variable identifiers
(`/\b[a-zA-Z_]\w*\b/` together with the `!match(/^\d/)` check). -/
def isIdentTok (s : String) : Bool :=
  match s.data with
  | [] => false
  | c :: cs => (c.isAlpha || c == '_') && cs.all isWordChar

/-- A nonempty all-digit token. -/
def isDigitsTok (s : String) : Bool :=
  !s.data.isEmpty && s.data.all Char.isDigit

/-! ## Character-level matching combinators

The regexes of the two JS files are compiled by hand into scanners over
`List Char`.  Each `eat…` combinator consumes a piece of input and returns
the rest (`none` on failure); greedy pieces (`+`, `*`) consume maximally,
which matches the JS engines on the patterns involved (backtracking on
those patterns is noted where it matters). -/

/-- `\s+` (greedy). -/
def eatWs1 : List Char → Option (List Char)
  | c :: cs => if isWs c then some (cs.dropWhile isWs) else none
  | [] => none

/-- `\s*` (greedy). -/
def eatWs0 (s : List Char) : List Char := s.dropWhile isWs

/-- `\w+` (greedy), returning the consumed run. -/
def eatWordRun : List Char → Option (String × List Char)
  | s =>
    let run := s.takeWhile isWordChar
    if run.isEmpty then none else some (⟨run⟩, s.dropWhile isWordChar)

/-- `\d+` (greedy), returning the consumed run. -/
def eatDigitRun : List Char → Option (String × List Char)
  | s =>
    let run := s.takeWhile Char.isDigit
    if run.isEmpty then none else some (⟨run⟩, s.dropWhile Char.isDigit)

/-- `\S+` (greedy), returning the consumed run. -/
def eatNonWsRun : List Char → Option (String × List Char)
  | s =>
    let run := s.takeWhile (fun c => !isWs c)
    if run.isEmpty then none else some (⟨run⟩, s.dropWhile (fun c => !isWs c))

/-- `[\d,._]+` (greedy), the amount character class of the JS sources. -/
def isAmountChar (c : Char) : Bool :=
  c.isDigit || c == ',' || c == '.' || c == '_'

def eatAmountRun : List Char → Option (String × List Char)
  | s =>
    let run := s.takeWhile isAmountChar
    if run.isEmpty then none else some (⟨run⟩, s.dropWhile isAmountChar)

/-- A literal string, case-insensitively. -/
def eatCI : List Char → List Char → Option (List Char)
  | [], s => some s
  | p :: ps, c :: cs => if c.toLower == p.toLower then eatCI ps cs else none
  | _ :: _, [] => none

def eatStrCI (w : String) (s : List Char) : Option (List Char) :=
  eatCI w.data s

/-- A literal string, case-sensitively. -/
def eatStr (w : String) (s : List Char) : Option (List Char) :=
  if w.data.isPrefixOf s then some (s.drop w.data.length) else none

def eatChar (c : Char) : List Char → Option (List Char)
  | d :: cs => if d == c then some cs else none
  | [] => none

/-- No word character follows here (`\b` on the right edge of a word). -/
def boundaryR : List Char → Bool
  | [] => true
  | c :: _ => !isWordChar c

/-- `prev` is the character to the left (`none` at string start); a word may
begin here (`\b` on the left edge). -/
def boundaryL : Option Char → Bool
  | none => true
  | some c => !isWordChar c

/-- Try a scanner at every suffix, left to right, tracking the previous
character for `\b` tests; returns the first success (leftmost match). -/
def scanFirstAux (f : Option Char → List Char → Option α) :
    Option Char → List Char → Option α
  | prev, [] => f prev []
  | prev, s@(c :: rest) => (f prev s).orElse fun _ => scanFirstAux f (some c) rest

def scanFirst (f : Option Char → List Char → Option α) (s : List Char) : Option α :=
  scanFirstAux f none s

/-! ## Decimal numbers (JS floats from the rule grammar)

`parseFloat` results are modelled as exact decimals `num / 10^scale`
(JS doubles agree with this for the amounts the grammar produces;
`none` stands for `NaN`). -/

structure DecNum where
  num : ℕ
  scale : ℕ
deriving DecidableEq, Repr

/-- Strip trailing fractional zeros: the canonical form that JS number
printing (`${x}`) produces for these decimals. -/
def normDecAux : ℕ → ℕ → ℕ → DecNum
  | n, s, fuel =>
    match fuel with
    | 0 => ⟨n, s⟩
    | fuel + 1 => if s ≠ 0 ∧ n % 10 = 0 then normDecAux (n / 10) (s - 1) fuel else ⟨n, s⟩

def normDec (d : DecNum) : DecNum := normDecAux d.num d.scale d.scale

def DecNum.toRat (d : DecNum) : ℚ := (d.num : ℚ) / (10 : ℚ) ^ d.scale

/-- JS `parseFloat` on a string of digits and dots (what remains of an
amount literal after the sources strip `,` and `_`): digits up to the first
dot, then fraction digits up to the next non-digit; `none` for `NaN`. -/
def jsParseFloat (s : String) : Option DecNum :=
  let intPart := s.data.takeWhile Char.isDigit
  let rest := s.data.dropWhile Char.isDigit
  let intVal := intPart.foldl (fun a c => a * 10 + (c.toNat - 48)) 0
  match rest with
  | '.' :: frac =>
    let fracDigits := frac.takeWhile Char.isDigit
    if intPart.isEmpty ∧ fracDigits.isEmpty then none
    else some (normDec ⟨fracDigits.foldl (fun a c => a * 10 + (c.toNat - 48)) intVal,
                        fracDigits.length⟩)
  | _ => if intPart.isEmpty then none else some ⟨intVal, 0⟩

/-- Decimal ≥ a natural bound, in pure `ℕ` arithmetic. -/
def DecNum.geNat (d : DecNum) (bound : ℕ) : Bool :=
  d.num ≥ bound * 10 ^ d.scale

/-- Digits of `n`, most significant first (`fuel`-bounded division loop). -/
def natDigitsGo : ℕ → ℕ → List Char → List Char
  | 0, _, acc => acc
  | fuel + 1, n, acc =>
    if n = 0 then acc
    else natDigitsGo fuel (n / 10) (Char.ofNat (48 + n % 10) :: acc)

/-- Render a natural number in decimal (JS integer printing). -/
def natDigits (n : ℕ) : List Char :=
  if n = 0 then ['0'] else natDigitsGo (n + 1) n []

def renderNat (n : ℕ) : String := ⟨natDigits n⟩

/-- JS printing of one of our decimals (`${x}`): integer part, then the
fractional digits with trailing zeros removed; `none` (NaN) prints `NaN`. -/
def renderDec (d : DecNum) : String :=
  let d := normDec d
  if d.scale = 0 then renderNat d.num
  else
    let digits := natDigits d.num
    let digits := if digits.length ≤ d.scale then
        (List.replicate (d.scale + 1 - digits.length) '0') ++ digits
      else digits
    ⟨digits.take (digits.length - d.scale) ++ '.' :: digits.drop (digits.length - d.scale)⟩

def renderOptDec : Option DecNum → String
  | some d => renderDec d
  | none => "NaN"

/-! ## Global regex replacement passes of `parseCondition`

`parseCondition` (compiler.js 5-40 and 451-492) is a chain of global
`String.replace` passes; each is compiled to a left-to-right scan over the
original characters, resuming after each matched span, exactly as the JS
engine does for `/g` patterns. -/

/-- Match `w₁\s+w₂\s+…\s+wₙ` case-insensitively with a `\b` after the last
word (the `\b` before the first word is the caller's concern). -/
def eatPhrase : List String → List Char → Option (List Char)
  | [], s => some s
  | [w], s => (eatStrCI w s).bind fun r => if boundaryR r then some r else none
  | w :: ws, s => (eatStrCI w s).bind fun r => (eatWs1 r).bind (eatPhrase (ws))

/-- Global replace of a `\bw₁\s+…\s+wₙ\b` phrase (flags `gi`). -/
def replacePhraseAux (words : List String) (rep : List Char) :
    ℕ → Option Char → List Char → List Char
  | 0, _, s => s
  | fuel + 1, prev, s =>
    match s with
    | [] => []
    | c :: rest =>
      match if boundaryL prev then eatPhrase words s else none with
      | some r =>
        rep ++ replacePhraseAux words rep fuel ((s.take (s.length - r.length)).getLast?) r
      | none => c :: replacePhraseAux words rep fuel (some c) rest

def replacePhrase (words : List String) (rep : String) (s : String) : String :=
  ⟨replacePhraseAux words rep.data s.data.length none s.data⟩

/-- The words of the negative lookahead of the bare-`is` rule
(`/\bis\b(?!\s+(less|greater|at|more|no|equal|not))/gi`). -/
def isLookaheadWords : List String :=
  ["less", "greater", "at", "more", "no", "equal", "not"]

def isLookaheadBad (r : List Char) : Bool :=
  match eatWs1 r with
  | none => false
  | some r2 => isLookaheadWords.any fun w => (eatStrCI w r2).isSome

/-- The final `is → ==` rule with its negative lookahead. -/
def replaceIsEqAux : ℕ → Option Char → List Char → List Char
  | 0, _, s => s
  | fuel + 1, prev, s =>
    match s with
    | [] => []
    | c :: rest =>
      match
        if boundaryL prev then
          (eatStrCI "is" s).bind fun r =>
            if boundaryR r ∧ ¬isLookaheadBad r then some r else none
        else none
      with
      | some r => '=' :: '=' :: replaceIsEqAux fuel (some 's') r
      | none => c :: replaceIsEqAux fuel (some c) rest

def replaceIsEq (s : String) : String :=
  ⟨replaceIsEqAux s.data.length none s.data⟩

/-- The ten phrase rules of compiler.js 9-18, in source order, followed by
the bare-`is` rule of line 19. -/
def isRules : List (List String × String) :=
  [(["is", "less", "than"], "<"), (["is", "greater", "than"], ">"),
   (["is", "at", "least"], ">="), (["is", "at", "most"], "<="),
   (["is", "more", "than"], ">"), (["is", "no", "more", "than"], "<="),
   (["is", "no", "less", "than"], ">="), (["is", "equal", "to"], "=="),
   (["is", "not", "equal", "to"], "!="), (["is", "not"], "!=")]

def applyIsRules (s : String) : String :=
  replaceIsEq (isRules.foldl (fun acc r => replacePhrase r.1 r.2 acc) s)

def isOpChar (c : Char) : Bool := c == '<' || c == '>' || c == '='

/-- One spacing pass `/\s*OP\s*/g → " OP "` (compiler.js 23-28 / 476-481).
Note that the `<` pass re-matches the `<` inside an already spaced `<=` (the
trailing `\s*` may be empty), splitting it into `< =`; likewise `>` and `>=`. -/
def spaceOpAux (op : List Char) : ℕ → List Char → List Char
  | 0, s => s
  | fuel + 1, s =>
    match s with
    | [] => []
    | c :: rest =>
      let afterWs := eatWs0 s
      if op.isPrefixOf afterWs then
        ' ' :: op ++ ' ' :: spaceOpAux op fuel ((afterWs.drop op.length).dropWhile isWs)
      else c :: spaceOpAux op fuel rest

def spaceOp (op : String) (s : String) : String :=
  ⟨spaceOpAux op.data s.data.length s.data⟩

def spaceAllOps (s : String) : String :=
  spaceOp ">" (spaceOp "<" (spaceOp ">=" (spaceOp "<=" (spaceOp "!=" (spaceOp "==" s)))))

/-- `/\$?([\d,]+(?:\.\d+)?)/g → "$1"`: drops each `$` that directly
precedes a digit or comma (bare numbers are replaced by themselves). -/
def stripDollarsAux : List Char → List Char
  | [] => []
  | '$' :: rest =>
    match rest with
    | c :: _ =>
      if c.isDigit || c == ',' then stripDollarsAux rest else '$' :: stripDollarsAux rest
    | [] => ['$']
  | c :: rest => c :: stripDollarsAux rest

def stripDollars (s : String) : String := ⟨stripDollarsAux s.data⟩

/-- `/,/g → ""` (compiler.js 30 / 483). -/
def stripCommas (s : String) : String := ⟨s.data.filter (fun c => c ≠ ',')⟩

/-- The boolean-literal rewrites of compiler.js 32-36 / 484-488, in order. -/
def rewriteBools (s : String) : String :=
  replacePhrase ["eligible"] "True"
    (replacePhrase ["no"] "False"
      (replacePhrase ["yes"] "True"
        (replacePhrase ["false"] "False"
          (replacePhrase ["true"] "True" s))))

/-- `/"([^"]+)"/g → "'$1'"` (compiler.js 37 / 489). -/
def rewriteQuotesAux : ℕ → List Char → List Char
  | 0, s => s
  | fuel + 1, s =>
    match s with
    | [] => []
    | '"' :: rest =>
      let inner := rest.takeWhile (fun c => c ≠ '"')
      let after := rest.dropWhile (fun c => c ≠ '"')
      match after with
      | '"' :: tail =>
        if inner.isEmpty then '"' :: rewriteQuotesAux fuel rest
        else '\'' :: inner ++ '\'' :: rewriteQuotesAux fuel tail
      | _ => '"' :: rewriteQuotesAux fuel rest
    | c :: rest => c :: rewriteQuotesAux fuel rest

def rewriteQuotes (s : String) : String := ⟨rewriteQuotesAux s.data.length s.data⟩

/-- Variant 1 `between` pass (compiler.js 31):
`/\bbetween\s+(\S+)\s+and\s+(\S+)/gi → ">= $1) and (_ <= $2"`. -/
def betweenPass1Aux : ℕ → Option Char → List Char → List Char
  | 0, _, s => s
  | fuel + 1, prev, s =>
    match s with
    | [] => []
    | c :: rest =>
      match
        if boundaryL prev then
          (eatStrCI "between" s).bind fun r0 =>
          (eatWs1 r0).bind fun r1 =>
          (eatNonWsRun r1).bind fun (t1, r2) =>
          (eatWs1 r2).bind fun r3 =>
          (eatStrCI "and" r3).bind fun r4 =>
          (eatWs1 r4).bind fun r5 =>
          (eatNonWsRun r5).map fun (t2, r6) => (t1, t2, r6)
        else none
      with
      | some (t1, t2, r6) =>
        '>' :: '=' :: ' ' :: t1.data ++ ')' :: ' ' :: 'a' :: 'n' :: 'd' :: ' ' :: '(' :: '_' ::
          ' ' :: '<' :: '=' :: ' ' :: t2.data ++ betweenPass1Aux fuel t2.data.getLast? r6
      | none => c :: betweenPass1Aux fuel (some c) rest

def betweenPass1 (s : String) : String := ⟨betweenPass1Aux s.data.length none s.data⟩

/-- Replace the first occurrence of `pat` (JS `replace` with a string
pattern); `pat` is never empty at the call sites. -/
def strReplaceFirstAux (pat rep : List Char) : List Char → List Char
  | [] => []
  | s@(c :: rest) =>
    if pat.isPrefixOf s ∧ ¬pat.isEmpty then rep ++ s.drop pat.length
    else c :: strReplaceFirstAux pat rep rest

def strReplaceFirst (s pat rep : String) : String :=
  ⟨strReplaceFirstAux pat.data rep.data s.data⟩

/-- Variant 2 `between` handling (compiler.js 467-472): first match of
`/(\w+)\s+between\s+(\S+)\s+and\s+(\S+)/i`, then a first-occurrence string
replacement of the full match by `"V >= LOW) and (V <= HIGH"`. -/
def betweenMatch2 (s : List Char) : Option (String × String × String × String) :=
  scanFirst
    (fun _ t =>
      (eatWordRun t).bind fun (v, r0) =>
      (eatWs1 r0).bind fun r1 =>
      (eatStrCI "between" r1).bind fun r2 =>
      (eatWs1 r2).bind fun r3 =>
      (eatNonWsRun r3).bind fun (lo, r4) =>
      (eatWs1 r4).bind fun r5 =>
      (eatStrCI "and" r5).bind fun r6 =>
      (eatWs1 r6).bind fun r7 =>
      (eatNonWsRun r7).map fun (hi, r8) =>
        (⟨t.take (t.length - r8.length)⟩, v, lo, hi))
    s

def betweenPass2 (s : String) : String :=
  match betweenMatch2 s.data with
  | some (fullMatch, v, lo, hi) =>
    strReplaceFirst s fullMatch (v ++ " >= " ++ lo ++ ") and (" ++ v ++ " <= " ++ hi)
  | none => s

/-- `parseCondition`, first compiler variant (compiler.js 5-40): the ten
`is`-phrase rules, bare `is`, the six operator-spacing passes, `$`/comma
stripping, the `between` rewrite (after the spacing passes), boolean
literals, and quoted strings. -/
def parseCondition1 (condition : String) : String :=
  rewriteQuotes (rewriteBools (betweenPass1 (stripCommas (stripDollars
    (spaceAllOps (applyIsRules condition))))))

/-- `parseCondition`, second compiler variant (compiler.js 451-492): the
`is` rules, then the `between` rewrite, then the spacing passes (which split
the freshly inserted `>=`/`<=` into `> =`/`< =`), `$`/comma stripping,
boolean literals, and quoted strings. -/
def parseCondition2 (condition : String) : String :=
  rewriteQuotes (rewriteBools (stripCommas (stripDollars
    (spaceAllOps (betweenPass2 (applyIsRules condition))))))

/-! ## Variable inference (`guessVariableType`, compiler.js 131-170 and 583-622)

Both variants take the lower-cased name through the same ordered,
first-match rule list; they differ only in the definition period assigned
by the boolean-indicator rule and by the income/money rule. -/

inductive VType where
  | int | bool | float | str
deriving DecidableEq, Repr

inductive VPeriod where
  | DAY | MONTH | YEAR | ETERNITY
deriving DecidableEq, Repr

/-- `guessVariableType`, first compiler variant (compiler.js 131-170). -/
def guessVariableType1 (vname : String) : VType × VPeriod :=
  let varLower := strLower vname
  if strContains varLower "age" then (.int, .DAY)
  else if strStarts varLower "is_" || strStarts varLower "has_" ||
      strContains varLower "eligible" || varLower == "studying" then (.bool, .DAY)
  else if strContains varLower "resident" || strContains varLower "citizen" then
    (.bool, .ETERNITY)
  else if strContains varLower "years" || strContains varLower "_years" then
    (.int, .YEAR)
  else if strContains varLower "status" || strContains varLower "type" ||
      strContains varLower "category" then (.str, .MONTH)
  else if strContains varLower "income" || strContains varLower "payment" ||
      strContains varLower "amount" || strContains varLower "rate" ||
      strContains varLower "asset" || strContains varLower "value" then
    (.float, .DAY)
  else (.float, .MONTH)

/-- `guessVariableType`, second compiler variant (compiler.js 583-622): the
boolean-indicator rule assigns period `MONTH`, and the income/money rule
assigns period `MONTH`. -/
def guessVariableType2 (vname : String) : VType × VPeriod :=
  let varLower := strLower vname
  if strContains varLower "age" then (.int, .DAY)
  else if strStarts varLower "is_" || strStarts varLower "has_" ||
      strContains varLower "eligible" || varLower == "studying" then (.bool, .MONTH)
  else if strContains varLower "resident" || strContains varLower "citizen" then
    (.bool, .ETERNITY)
  else if strContains varLower "years" || strContains varLower "_years" then
    (.int, .YEAR)
  else if strContains varLower "status" || strContains varLower "type" ||
      strContains varLower "category" then (.str, .MONTH)
  else if strContains varLower "income" || strContains varLower "payment" ||
      strContains varLower "amount" || strContains varLower "rate" ||
      strContains varLower "asset" || strContains varLower "value" then
    (.float, .MONTH)
  else (.float, .MONTH)

/-! ## Outcome parsing (`parseOutcome`, identical in both variants:
compiler.js 42-89 and 494-541) -/

inductive COutcome where
  | eligibility (vname : String)
  | payment (amount : Option DecNum) (period : String)
  | sched (name : String)
  | reduction (cents : ℕ) (threshold : Option DecNum)
  | unknown (text : String)
deriving DecidableEq, Repr

def digitsVal (cs : List Char) : ℕ :=
  cs.foldl (fun a c => a * 10 + (c.toNat - 48)) 0

/-- `replace(/[,_]/g, "")` before `parseFloat`/`parseInt`. -/
def cleanAmount (s : String) : String :=
  ⟨s.data.filter (fun c => c ≠ ',' ∧ c ≠ '_')⟩

/-- First match of `/(\w+)\s*=\s*true/i`, returning the captured variable. -/
def matchEligEq (s : List Char) : Option String :=
  scanFirst
    (fun _ t =>
      (eatWordRun t).bind fun (v, r0) =>
      (eatChar '=' (eatWs0 r0)).bind fun r1 =>
      (eatStrCI "true" (eatWs0 r1)).map fun _ => v)
    s

/-- First match of `/(\w+)\s+is\s+W/i` for `W ∈ {eligible, yes, true}`. -/
def matchEligIs (w : String) (s : List Char) : Option String :=
  scanFirst
    (fun _ t =>
      (eatWordRun t).bind fun (v, r0) =>
      (eatWs1 r0).bind fun r1 =>
      (eatStrCI "is" r1).bind fun r2 =>
      (eatWs1 r2).bind fun r3 =>
      (eatStrCI w r3).map fun _ => v)
    s

/-- First match of `/payment\s+is\s+\$?([\d,._]+)(?:\s+per\s+(\w+))?/i`. -/
def matchPayment (s : List Char) : Option (String × Option String) :=
  scanFirst
    (fun _ t =>
      (eatStrCI "payment" t).bind fun r0 =>
      (eatWs1 r0).bind fun r1 =>
      (eatStrCI "is" r1).bind fun r2 =>
      (eatWs1 r2).bind fun r3 =>
      let r3 := ((eatChar '$' r3).getD r3)
      (eatAmountRun r3).map fun (amt, r4) =>
        let per :=
          (eatWs1 r4).bind fun r5 =>
          (eatStrCI "per" r5).bind fun r6 =>
          (eatWs1 r6).bind fun r7 =>
          (eatWordRun r7).map fun (p, _) => p
        (amt, per))
    s

/-- First match of `/rate\s+is\s+determined\s+by\s+(.+)/i`; the capture runs
to the end of the line. -/
def matchScheduleRef (s : List Char) : Option String :=
  scanFirst
    (fun _ t => do
      let r0 ← eatStrCI "rate" t
      let r1 ← eatWs1 r0
      let r2 ← eatStrCI "is" r1
      let r3 ← eatWs1 r2
      let r4 ← eatStrCI "determined" r3
      let r5 ← eatWs1 r4
      let r6 ← eatStrCI "by" r5
      let r7 ← eatWs1 r6
      if r7.isEmpty then none else some (⟨r7⟩ : String))
    s

/-- The `cents\s+per\s+dollar\s+over\s+\$?([\d,._]+)` tail of the
reduction pattern of
`/payment\s+reduces\s+by\s+(\d+)\s+cents\s+per\s+dollar\s+over\s+\$?([\d,._]+)/i`,
starting right after the captured digits. -/
def matchReductionTail (r6 : List Char) : Option String := do
  let r7 ← eatWs1 r6
  let r8 ← eatStrCI "cents" r7
  let r9 ← eatWs1 r8
  let r10 ← eatStrCI "per" r9
  let r11 ← eatWs1 r10
  let r12 ← eatStrCI "dollar" r11
  let r13 ← eatWs1 r12
  let r14 ← eatStrCI "over" r13
  let r15 ← eatWs1 r14
  let r16 := ((eatChar '$' r15).getD r15)
  let (thr, _) ← eatAmountRun r16
  some thr

def matchReduction (s : List Char) : Option (String × String) :=
  scanFirst
    (fun _ t => do
      let r0 ← eatStrCI "payment" t
      let r1 ← eatWs1 r0
      let r2 ← eatStrCI "reduces" r1
      let r3 ← eatWs1 r2
      let r4 ← eatStrCI "by" r3
      let r5 ← eatWs1 r4
      let (cents, r6) ← eatDigitRun r5
      let thr ← matchReductionTail r6
      some (cents, thr))
    s

/-- `parseOutcome` (compiler.js 42-89 = 494-541): the four eligibility
patterns in order, then payment, schedule reference, reduction, else
`unknown`. -/
def parseOutcome (outcome : String) : COutcome :=
  match matchEligEq outcome.data with
  | some v => .eligibility v
  | none =>
  match matchEligIs "eligible" outcome.data with
  | some v => .eligibility v
  | none =>
  match matchEligIs "yes" outcome.data with
  | some v => .eligibility v
  | none =>
  match matchEligIs "true" outcome.data with
  | some v => .eligibility v
  | none =>
  match matchPayment outcome.data with
  | some (amt, per) => .payment (jsParseFloat (cleanAmount amt)) (per.getD "fortnight")
  | none =>
  match matchScheduleRef outcome.data with
  | some cap => .sched (jsTrim cap)
  | none =>
  match matchReduction outcome.data with
  | some (cents, thr) => .reduction (digitsVal cents.data) (jsParseFloat (cleanAmount thr))
  | none => .unknown outcome

/-! ## Variable extraction (`extractVariables`, compiler.js 91-129 = 543-581) -/

def excludeWordsC : List String :=
  ["true", "false", "yes", "no", "eligible",
   "and", "or", "not", "between",
   "is", "are", "was", "were", "be", "been", "has", "have",
   "less", "greater", "than", "at", "least", "most", "more", "equal", "to",
   "per", "by", "cents", "cent", "dollar", "dollars", "over", "under",
   "payment", "payments", "rate", "rates", "reduces", "reduced", "reduction",
   "amount", "base", "maximum", "minimum",
   "fortnight", "fortnightly", "week", "weekly", "month", "monthly",
   "year", "yearly", "annual", "annually", "day", "daily",
   "all", "any", "of", "these", "are", "the", "a", "an",
   "then", "when", "given", "and", "or", "if"]

/-- `/\$[\d,]+(?:\.\d+)?/g → ""`. -/
def removeMoneyAux : ℕ → List Char → List Char
  | 0, s => s
  | fuel + 1, s =>
    match s with
    | [] => []
    | '$' :: rest =>
      let run := rest.takeWhile (fun c => c.isDigit || c == ',')
      if run.isEmpty then '$' :: removeMoneyAux fuel rest
      else
        let r1 := rest.dropWhile (fun c => c.isDigit || c == ',')
        match r1 with
        | '.' :: r2 =>
          let frac := r2.takeWhile Char.isDigit
          if frac.isEmpty then removeMoneyAux fuel r1
          else removeMoneyAux fuel (r2.dropWhile Char.isDigit)
        | _ => removeMoneyAux fuel r1
    | c :: rest => c :: removeMoneyAux fuel rest

/-- Remove `q…q`-quoted spans (`/q[^q]*q/g`, possibly empty inside). -/
def removeQuotedAux (q : Char) : ℕ → List Char → List Char
  | 0, s => s
  | fuel + 1, s =>
    match s with
    | [] => []
    | c :: rest =>
      if c == q then
        match rest.dropWhile (fun d => d ≠ q) with
        | _ :: tail => removeQuotedAux q fuel tail
        | [] => c :: removeQuotedAux q fuel rest
      else c :: removeQuotedAux q fuel rest

/-- JS `Set.prototype.add`: insertion-ordered, first occurrence wins. -/
def setAdd (l : List String) (x : String) : List String :=
  if x ∈ l then l else l ++ [x]

/-- `extractVariables(text, variables)` (compiler.js 91-129): strip money
amounts and quoted strings, then add every identifier-shaped word run not in
the exclusion list to the insertion-ordered set. -/
def extractVariables (text : String) (vars : List String) : List String :=
  let clean1 := removeMoneyAux text.data.length text.data
  let clean2 := removeQuotedAux '"' clean1.length clean1
  let clean3 := removeQuotedAux '\'' clean2.length clean2
  ((wordRuns ⟨clean3⟩).filter isIdentTok).foldl
    (fun vs w => if strLower w ∈ excludeWordsC then vs else setAdd vs w) vars

/-! ## Compiler document loops (compiler.js 291-373 first variant,
829-918 second variant) -/

structure CScenario where
  name : String
  conditions : List String
  outcomes : List COutcome
deriving DecidableEq, Repr

structure SchedEntry where
  condition : String
  amount : Option DecNum
  period : String
deriving DecidableEq, Repr

/-- JS `Map.prototype.set`: replaces the value of an existing key in place,
otherwise appends. -/
def mapSet (m : List (String × List SchedEntry)) (k : String) (v : List SchedEntry) :
    List (String × List SchedEntry) :=
  if m.any (fun p => p.1 = k) then m.map (fun p => if p.1 = k then (k, v) else p)
  else m ++ [(k, v)]

def mapPush (m : List (String × List SchedEntry)) (k : String) (e : SchedEntry) :
    List (String × List SchedEntry) :=
  m.map (fun p => if p.1 = k then (p.1, p.2 ++ [e]) else p)

def mapGet (m : List (String × List SchedEntry)) (k : String) : Option (List SchedEntry) :=
  (m.find? (fun p => p.1 = k)).map (·.2)

/-- One alternative of `/^(KW₁|KW₂|…)\s+/`: the keyword must prefix the
line and be followed by whitespace; the returned remainder has the keyword
and the whitespace run stripped (as `replace(/^(…)\s+/, "")` does). -/
def matchKw1 (kw : String) (s : String) : Option (String × String) :=
  if strStarts s kw then
    match s.data.drop kw.data.length with
    | c :: rest => if isWs c then some (kw, ⟨rest.dropWhile isWs⟩) else none
    | [] => none
  else none

/-- `trimmed.match(/^(When|Given|And)\s+/)` together with
`trimmed.replace(/^(When|Given|And)\s+/, "")`: the alternatives are tried
in order. -/
def matchKwWs : List String → String → Option (String × String)
  | [], _ => none
  | kw :: kws, s =>
    match matchKw1 kw s with
    | some r => some r
    | none => matchKwWs kws s

def condKws : List String := ["When", "Given", "And"]
def condKwsV : List String := ["When", "Given", "And", "Or"]
def thenKws : List String := ["Then", "And"]

/-- `trimmed.replace(/^Or\s+/, "")` (applied after a bare
`trimmed.startsWith("Or")` test in the compilers). -/
def stripOr (s : String) : String :=
  match matchKwWs ["Or"] s with
  | some (_, rest) => rest
  | none => s

/-- Schedule entry line match (second variant, compiler.js 872):
`/^When\s+(.+?):\s*\$?([\d,._]+)(?:\s+per\s+(\w+))?$/`.  The lazy `(.+?)`
tries each `:` from the left until the anchored remainder parses.
(Backtracking into the leading `\s+` is not modelled; it matters only when
the captured condition would have to begin with whitespace.) -/
def schedTailMatch (s : List Char) : Option (String × Option String) :=
  let r := ((eatChar '$' (eatWs0 s)).getD (eatWs0 s))
  (eatAmountRun r).bind fun (amt, r1) =>
    match r1 with
    | [] => some (amt, none)
    | _ =>
      ((eatWs1 r1).bind fun r2 =>
       (eatStr "per" r2).bind fun r3 =>
       (eatWs1 r3).bind fun r4 =>
       (eatWordRun r4).bind fun (p, r5) =>
       if r5.isEmpty then some (amt, some p) else none)

def schedEntrySplit : ℕ → List Char → List Char → Option (String × String × Option String)
  | 0, _, _ => none
  | fuel + 1, acc, s =>
    match s with
    | [] => none
    | c :: rest =>
      if c == ':' ∧ ¬acc.isEmpty then
        match schedTailMatch rest with
        | some (amt, per) => some (⟨acc.reverse⟩, amt, per)
        | none => schedEntrySplit fuel (c :: acc) rest
      else schedEntrySplit fuel (c :: acc) rest

/-- Full schedule-entry match on a trimmed line; returns the parsed entry. -/
def schedEntryMatch (trimmed : String) : Option SchedEntry :=
  (eatStr "When" trimmed.data).bind fun r0 =>
  (eatWs1 r0).bind fun r1 =>
  (schedEntrySplit r1.length [] r1).map fun (cond, amt, per) =>
    ⟨cond, jsParseFloat (cleanAmount amt), per.getD "fortnight"⟩

/-- Loop state of the second compiler variant (compiler.js 832-840). -/
structure CState2 where
  scenarios : List CScenario
  currentScenario : Option String
  currentDefinition : Option String
  currentSchedule : Option String
  vars : List String
  conditions : List String
  outcomes : List COutcome
  inConditions : Bool
  schedules : List (String × List SchedEntry)
deriving DecidableEq, Repr

def initCState2 : CState2 := ⟨[], none, none, none, [], [], [], true, []⟩

/-- Push a parsed condition if it is nonempty and contains no `:`
(compiler.js 886-889 and similar). -/
def cPushCond2 (s : CState2) (condition : String) : CState2 :=
  if condition ≠ "" ∧ ¬strContains condition ":" then
    { s with conditions := s.conditions ++ [parseCondition2 condition],
             vars := extractVariables condition s.vars }
  else s

/-- Scenario-body handling of the second variant (compiler.js 883-907):
condition keywords (while still in conditions), `Or`, `Then|And` outcomes,
then list items. -/
def cBody2 (s : CState2) (trimmed : String) : CState2 :=
  match matchKwWs condKws trimmed, s.inConditions with
  | some (_, condition), true => cPushCond2 s condition
  | _, _ =>
    if strStarts trimmed "Or" ∧ s.inConditions then cPushCond2 s (stripOr trimmed)
    else
      match matchKwWs thenKws trimmed with
      | some (_, outcome) =>
        { s with inConditions := false, outcomes := s.outcomes ++ [parseOutcome outcome] }
      | none =>
        if strStarts trimmed "-" then
          let item := jsTrim ⟨trimmed.data.drop 1⟩
          if s.inConditions then
            { s with conditions := s.conditions ++ [parseCondition2 item],
                     vars := extractVariables item s.vars }
          else s
        else s

/-- One line of the second variant document loop (compiler.js 843-908). -/
def cStep2 (s : CState2) (line : String) : CState2 :=
  let trimmed := jsTrim line
  if strStarts trimmed "Scenario:" then
    { s with
      scenarios := s.scenarios ++
        (match s.currentScenario with
         | some n => [⟨n, s.conditions, s.outcomes⟩]
         | none => []),
      currentScenario := some (jsTrim ⟨trimmed.data.drop 9⟩),
      conditions := [], outcomes := [], inConditions := true, currentSchedule := none }
  else if strStarts trimmed "Definition:" then
    { s with currentDefinition := some (jsTrim ⟨trimmed.data.drop 11⟩),
             currentSchedule := none }
  else if strStarts trimmed "Schedule:" then
    let name := jsTrim ⟨trimmed.data.drop 9⟩
    { s with currentSchedule := some name, schedules := mapSet s.schedules name [] }
  else if s.currentSchedule.isSome ∧ strStarts trimmed "When " then
    match s.currentSchedule with
    | some sched =>
      match schedEntryMatch trimmed with
      | some e => { s with schedules := mapPush s.schedules sched e }
      | none => s
    | none => s
  else if s.currentScenario.isSome then cBody2 s trimmed
  else s

/-- The final flush of the second variant loop (compiler.js 912-918). -/
def cFinish2 (s : CState2) : CState2 :=
  { s with scenarios := s.scenarios ++
      (match s.currentScenario with
       | some n => [⟨n, s.conditions, s.outcomes⟩]
       | none => []) }

def collect2 (lines : List String) : CState2 :=
  cFinish2 (lines.foldl cStep2 initCState2)

/-- Loop state of the first compiler variant (compiler.js 306-312); the
`scenarios` field records the `(name, conditions, outcomes)` triples the
loop hands to `generateScenarioCode` inline. -/
structure CState1 where
  scenarios : List CScenario
  currentScenario : Option String
  currentDefinition : Option String
  currentSchedule : Option String
  vars : List String
  conditions : List String
  outcomes : List COutcome
  inConditions : Bool
deriving DecidableEq, Repr

def initCState1 : CState1 := ⟨[], none, none, none, [], [], [], true⟩

def cPushCond1 (s : CState1) (condition : String) : CState1 :=
  if condition ≠ "" ∧ ¬strContains condition ":" then
    { s with conditions := s.conditions ++ [parseCondition1 condition],
             vars := extractVariables condition s.vars }
  else s

/-- Scenario-body handling of the first variant (compiler.js 335-360): the
`Then|And` outcome branch additionally requires the raw trimmed line to
contain the substring `is` (compiler.js 349). -/
def cBody1 (s : CState1) (trimmed : String) : CState1 :=
  match matchKwWs condKws trimmed, s.inConditions with
  | some (_, condition), true => cPushCond1 s condition
  | _, _ =>
    if strStarts trimmed "Or" ∧ s.inConditions then cPushCond1 s (stripOr trimmed)
    else
      match matchKwWs thenKws trimmed, strContains trimmed "is" with
      | some (_, outcome), true =>
        { s with inConditions := false, outcomes := s.outcomes ++ [parseOutcome outcome] }
      | _, _ =>
        if strStarts trimmed "-" then
          let item := jsTrim ⟨trimmed.data.drop 1⟩
          if s.inConditions then
            { s with conditions := s.conditions ++ [parseCondition1 item],
                     vars := extractVariables item s.vars }
          else s
        else s

/-- One line of the first variant document loop (compiler.js 314-362);
unlike the second variant there is no schedule-entry branch. -/
def cStep1 (s : CState1) (line : String) : CState1 :=
  let trimmed := jsTrim line
  if strStarts trimmed "Scenario:" then
    { s with
      scenarios := s.scenarios ++
        (match s.currentScenario with
         | some n => [⟨n, s.conditions, s.outcomes⟩]
         | none => []),
      currentScenario := some (jsTrim ⟨trimmed.data.drop 9⟩),
      conditions := [], outcomes := [], inConditions := true }
  else if strStarts trimmed "Definition:" then
    { s with currentDefinition := some (jsTrim ⟨trimmed.data.drop 11⟩) }
  else if strStarts trimmed "Schedule:" then
    { s with currentSchedule := some (jsTrim ⟨trimmed.data.drop 9⟩) }
  else if s.currentScenario.isSome then cBody1 s trimmed
  else s

def cFinish1 (s : CState1) : CState1 :=
  { s with scenarios := s.scenarios ++
      (match s.currentScenario with
       | some n => [⟨n, s.conditions, s.outcomes⟩]
       | none => []) }

def collect1 (lines : List String) : CState1 :=
  cFinish1 (lines.foldl cStep1 initCState1)

/-! ## Code generation (`generateScenarioCode` and friends)

The generators build the emitted Python source text character-for-character
(`\n`-escaped), so the compile functions below produce the same strings as
the JS (up to the JS float-printing caveat noted at `renderDec`). -/

/-- `replace(/\s+/g, "_")`: each whitespace run becomes one underscore. -/
def wsToUnderscoreAux : ℕ → List Char → List Char
  | 0, s => s
  | _ + 1, [] => []
  | fuel + 1, c :: rest =>
    if isWs c then '_' :: wsToUnderscoreAux fuel (rest.dropWhile isWs)
    else c :: wsToUnderscoreAux fuel rest

def wsToUnderscore (s : String) : String := ⟨wsToUnderscoreAux s.data.length s.data⟩

/-- `name.replace(/\s+/g, "_").toLowerCase()` (compiler.js 192 / 700). -/
def classNameOf (name : String) : String := strLower (wsToUnderscore name)

/-- `toLowerCase().replace(/[^a-z0-9]+/g, "_")` (compiler.js 651 / 790). -/
def slugNonAlnumAux : ℕ → List Char → List Char
  | 0, s => s
  | _ + 1, [] => []
  | fuel + 1, c :: rest =>
    if c.isLower || c.isDigit then c :: slugNonAlnumAux fuel rest
    else '_' :: slugNonAlnumAux fuel (rest.dropWhile (fun d => ¬(d.isLower || d.isDigit)))

def slugNonAlnum (s : String) : String :=
  ⟨slugNonAlnumAux (strLower s).data.length (strLower s).data⟩

/-- The spacing fix `/\s+([<>=]+)\s+/g → " $1 "` (compiler.js 230 / 738). -/
def opSpaceFixAux : ℕ → List Char → List Char
  | 0, s => s
  | fuel + 1, s =>
    match s with
    | [] => []
    | c :: rest =>
      match
        (eatWs1 s).bind fun r =>
          let run := r.takeWhile isOpChar
          if run.isEmpty then none
          else (eatWs1 (r.dropWhile isOpChar)).map fun r3 => (run, r3)
      with
      | some (run, r3) => ' ' :: run ++ ' ' :: opSpaceFixAux fuel r3
      | none => c :: opSpaceFixAux fuel rest

def opSpaceFix (s : String) : String := ⟨opSpaceFixAux s.data.length s.data⟩

/-- Variant 1 `between` fix `/\)\s+and\s+\(_/g → ") and ("` (compiler.js
231): the `_` placeholder is dropped and not replaced by anything. -/
def betweenFix1Aux : ℕ → List Char → List Char
  | 0, s => s
  | fuel + 1, s =>
    match s with
    | [] => []
    | c :: rest =>
      match
        (eatChar ')' s).bind fun r0 =>
        (eatWs1 r0).bind fun r1 =>
        (eatStr "and" r1).bind fun r2 =>
        (eatWs1 r2).bind fun r3 =>
        (eatChar '(' r3).bind fun r4 =>
        eatChar '_' r4
      with
      | some r5 => ')' :: ' ' :: 'a' :: 'n' :: 'd' :: ' ' :: '(' :: betweenFix1Aux fuel r5
      | none => c :: betweenFix1Aux fuel rest

def fixedCondition1 (condition : String) : String :=
  let f := opSpaceFix condition
  ⟨betweenFix1Aux f.data.length f.data⟩

/-- Variant 2 `between` variable fix (compiler.js 740-744): first match of
`/(\w+)\s*>=\s*\d+\)\s*and\s*\((\w+)\s*<=\s*\d+/`, then the first occurrence
of the second variable is replaced by the first. -/
def betweenVarMatch (s : List Char) : Option (String × String) :=
  scanFirst
    (fun _ t => do
      let (w1, r0) ← eatWordRun t
      let r1 ← eatStr ">=" (eatWs0 r0)
      let (_, r2) ← eatDigitRun (eatWs0 r1)
      let r3 ← eatChar ')' r2
      let r4 ← eatStr "and" (eatWs0 r3)
      let r5 ← eatChar '(' (eatWs0 r4)
      let (w2, r6) ← eatWordRun r5
      let r7 ← eatStr "<=" (eatWs0 r6)
      let _ ← eatDigitRun (eatWs0 r7)
      some (w1, w2))
    s

def fixedCondition2 (condition : String) : String :=
  let f := opSpaceFix condition
  match betweenVarMatch f.data with
  | some (w1, w2) => if w1 ≠ "" then strReplaceFirst f w2 w1 else f
  | none => f

/-- The insertion-ordered distinct variable names referenced by the parsed
conditions (`usedVars`, compiler.js 212-223 / 720-731). -/
def usedVars (conditions : List String) : List String :=
  conditions.foldl
    (fun acc c =>
      ((wordRuns c).filter isIdentTok).foldl
        (fun acc v =>
          if v ∈ ["True", "False", "and", "or", "not"] then acc else setAdd acc v)
        acc)
    []

def personDecl (v : String) : String :=
  "        " ++ v ++ " = person(\x27" ++ v ++ "\x27, period)\n"

def eligConjuncts (fix : String → String) (conditions : List String) : String :=
  String.join
    ((conditions.enum.map fun (idx, c) =>
      "            " ++ (if idx > 0 then "and " else "") ++ "(" ++ fix c ++ ")\n"))

/-- The `…_eligible` class text (identical template in both variants,
compiler.js 198-238 / 706-751), parameterised by the variant condition fix. -/
def eligClassCode (fix : String → String) (name : String) (conditions : List String) :
    String :=
  let cn := classNameOf name
  "\nclass " ++ cn ++ "_eligible(Variable):\n" ++
  "    value_type = bool\n" ++
  "    entity = Person\n" ++
  "    definition_period = MONTH\n" ++
  "    label = \"" ++ name ++ " eligibility\"\n" ++
  "    documentation = \"\"\"\n" ++
  "    " ++ name ++ " eligibility conditions.\n" ++
  "    \"\"\"\n" ++
  "    \n" ++
  "    def formula(person, period, parameters):\n" ++
  String.join ((usedVars conditions).map personDecl) ++
  (if conditions.length > 0 then
    "\n        return (\n" ++ eligConjuncts fix conditions ++ "        )\n"
  else "        return True\n")

def findPayment (outs : List COutcome) : Option (Option DecNum × String) :=
  (outs.find? fun o => match o with | .payment _ _ => true | _ => false).bind
    fun o => match o with | .payment a p => some (a, p) | _ => none

def findSched (outs : List COutcome) : Option String :=
  (outs.find? fun o => match o with | .sched _ => true | _ => false).bind
    fun o => match o with | .sched n => some n | _ => none

def findReductions (outs : List COutcome) : List (ℕ × Option DecNum) :=
  outs.filterMap fun o => match o with | .reduction c t => some (c, t) | _ => none

/-- The shared `…_payment` class prologue (compiler.js 246-263 variant 1
with period `DAY`, 759-776 variant 2 with period `MONTH`). -/
def paymentPrologue (period : String) (name : String) : String :=
  let cn := classNameOf name
  "\n\nclass " ++ cn ++ "_payment(Variable):\n" ++
  "    value_type = float\n" ++
  "    entity = Person\n" ++
  "    definition_period = " ++ period ++ "\n" ++
  "    label = \"" ++ name ++ " payment amount\"\n" ++
  "    documentation = \"\"\"\n" ++
  "    " ++ name ++ " payment calculation.\n" ++
  "    \"\"\"\n" ++
  "    \n" ++
  "    def formula(person, period, parameters):\n" ++
  "        eligible = person(\x27" ++ cn ++ "_eligible\x27, period)\n" ++
  "        \n" ++
  "        if not eligible:\n" ++
  "            return 0\n" ++
  "        \n"

/-- `parseScheduleCondition` (compiler.js 668-697). -/
def schedCondRepAux (mid : List String) (op : String) (ci : Bool) :
    ℕ → Option Char → List Char → List Char
  | 0, _, s => s
  | fuel + 1, _, s =>
    match s with
    | [] => []
    | c :: rest =>
      match
        (eatWordRun s).bind fun (v, r0) =>
        (eatWs1 r0).bind fun r1 =>
        (mid.foldlM (fun r w =>
            ((if ci then eatStrCI w r else eatStr w r)).bind eatWs1) r1).bind
          fun r2 =>
        (eatDigitRun r2).map fun (d, r3) => (v, d, r3)
      with
      | some (v, d, r3) =>
        ("person(\x27" ++ v ++ "\x27, period) " ++ op ++ " " ++ d).data ++
          schedCondRepAux mid op ci fuel (d.data.getLast?) r3
      | none => c :: schedCondRepAux mid op ci fuel (some c) rest

def schedCondRep (mid : List String) (op : String) (ci : Bool) (s : String) : String :=
  ⟨schedCondRepAux mid op ci s.data.length none s.data⟩

/-- First match of `/(\w+)\s+between\s+(\d+)\s+and\s+(\d+)/i`
(compiler.js 673). -/
def schedBetweenMatch (s : List Char) : Option (String × String × String) :=
  scanFirst
    (fun _ t => do
      let (v, r0) ← eatWordRun t
      let r1 ← eatWs1 r0
      let r2 ← eatStrCI "between" r1
      let r3 ← eatWs1 r2
      let (lo, r4) ← eatDigitRun r3
      let r5 ← eatWs1 r4
      let r6 ← eatStrCI "and" r5
      let r7 ← eatWs1 r6
      let (hi, _) ← eatDigitRun r7
      some (v, lo, hi))
    s

def parseScheduleCondition (condition : String) : String :=
  match schedBetweenMatch condition.data with
  | some (v, lo, hi) =>
    "person(\x27" ++ v ++ "\x27, period) >= " ++ lo ++
      " and person(\x27" ++ v ++ "\x27, period) <= " ++ hi
  | none =>
    let parsed := condition
    let parsed := schedCondRep ["is", "less", "than"] "<" true parsed
    let parsed := schedCondRep ["is", "greater", "than"] ">" true parsed
    let parsed := schedCondRep ["is", "at", "least"] ">=" true parsed
    let parsed := schedCondRep ["is", "at", "most"] "<=" true parsed
    let parsed := schedCondRep ["<"] "<" false parsed
    let parsed := schedCondRep [">"] ">" false parsed
    let parsed := schedCondRep ["<="] "<=" false parsed
    let parsed := schedCondRep [">="] ">=" false parsed
    if ¬strContains parsed "person(" then
      "person(\x27family_situation\x27, period) == \x27" ++ condition ++ "\x27"
    else parsed

/-- `toLowerCase().replace(/\s+/g, "_")` (compiler.js 271, 647, 789). -/
def slugWs (s : String) : String := wsToUnderscore (strLower s)

/-- One schedule-dispatch `if`/`elif` line pair of the second variant
(compiler.js 787-800). -/
def schedBranchCode (schedName : String) (e : SchedEntry) (idx : ℕ) : String :=
  let conditionCode := parseScheduleCondition e.condition
  let varName := slugWs schedName ++ "_" ++ slugNonAlnum e.condition
  "        " ++ (if idx = 0 then "if " else "elif ") ++ conditionCode ++ ":\n" ++
  "            base_amount = person(\x27" ++ varName ++ "\x27, period)\n"

/-- The base-amount section of the second variant payment formula
(compiler.js 778-809). -/
def baseAmountCode2 (outs : List COutcome) (schedules : List (String × List SchedEntry)) :
    String :=
  match findPayment outs with
  | some (amt, _) =>
    "        # Base payment amount\n" ++
    "        base_amount = " ++ renderOptDec amt ++ "\n"
  | none =>
    match findSched outs with
    | some name =>
      match mapGet schedules name with
      | some entries =>
        if entries.length > 0 then
          "        # Payment from schedule: " ++ name ++ "\n" ++
          String.join (entries.enum.map fun (idx, e) => schedBranchCode name e idx) ++
          "        else:\n" ++
          "            base_amount = 0\n"
        else
          "        # Schedule not found\n        base_amount = 0\n"
      | none => "        # Schedule not found\n        base_amount = 0\n"
    | none => "        base_amount = 0\n"

def reductionCode2 (r : ℕ × Option DecNum) : String :=
  "        if income > " ++ renderOptDec r.2 ++ ":\n" ++
  "            base_amount = max(0, base_amount - (income - " ++ renderOptDec r.2 ++
  ") * " ++ renderDec (normDec ⟨r.1, 2⟩) ++ ")\n"

/-- `generateScenarioCode`, second variant (compiler.js 699-826). -/
def generateScenarioCode2 (name : String) (conditions : List String)
    (outcomes : List COutcome) (schedules : List (String × List SchedEntry)) : String :=
  let reds := findReductions outcomes
  eligClassCode fixedCondition2 name conditions ++
  (if (findPayment outcomes).isSome ∨ (findSched outcomes).isSome ∨ reds.length > 0 then
    paymentPrologue "MONTH" name ++
    baseAmountCode2 outcomes schedules ++
    (if reds.length > 0 then
      "        \n        # Apply income test reductions\n" ++
      "        income = person(\x27income\x27, period)\n" ++
      String.join (reds.map reductionCode2)
    else "") ++
    "        \n        return base_amount\n"
  else "")

/-- `generateScenarioCode`, first variant (compiler.js 191-288): payment
class only for fixed or schedule outcomes, `DAY` period, schedule lookup and
reductions emitted as TODO comments only. -/
def generateScenarioCode1 (name : String) (conditions : List String)
    (outcomes : List COutcome) : String :=
  let reds := findReductions outcomes
  eligClassCode fixedCondition1 name conditions ++
  (if (findPayment outcomes).isSome ∨ (findSched outcomes).isSome then
    paymentPrologue "DAY" name ++
    (match findPayment outcomes with
     | some (amt, _) =>
       "        # Base payment amount\n" ++
       "        base_amount = " ++ renderOptDec amt ++ "\n"
     | none =>
       match findSched outcomes with
       | some sched =>
         "        # Payment from schedule: " ++ sched ++ "\n" ++
         "        # TODO: Implement schedule lookup\n" ++
         "        base_amount = 0  # parameters." ++ slugWs sched ++ "[period]\n"
       | none => "") ++
    (if reds.length > 0 then
      "        \n        # Apply income test reductions\n" ++
      String.join (reds.map fun r =>
        "        # Reduces by " ++ renderNat r.1 ++ " cents per dollar over $" ++
          renderOptDec r.2 ++ "\n" ++
        "        # TODO: Implement reduction calculation\n")
    else "") ++
    "        \n        return base_amount\n"
  else "")

/-- Rendered value type name (the conditional at compiler.js 177/629 is the
identity on the type name). -/
def vtypeName : VType → String
  | .int => "int" | .bool => "bool" | .float => "float" | .str => "str"

def periodName : VPeriod → String
  | .DAY => "DAY" | .MONTH => "MONTH" | .YEAR => "YEAR" | .ETERNITY => "ETERNITY"

/-- `variable.replace(/_/g, " ")` (compiler.js 184/636). -/
def underscoresToSpaces (s : String) : String :=
  ⟨s.data.map (fun c => if c = '_' then ' ' else c)⟩

/-- `generateVariableDefinitions` (compiler.js 172-189 and 624-641),
parameterised by the variant `guessVariableType`. -/
def generateVariableDefinitions (guess : String → VType × VPeriod)
    (vars : List String) : String :=
  "# Variable definitions\n" ++
  String.join (vars.map fun v =>
    let varInfo := guess v
    "\nclass " ++ v ++ "(Variable):\n" ++
    "    value_type = " ++ vtypeName varInfo.1 ++ "\n" ++
    "    entity = Person\n" ++
    "    definition_period = " ++ periodName varInfo.2 ++ "\n" ++
    "    label = \"" ++ underscoresToSpaces v ++ "\"\n")

/-- `generateScheduleParameters` (compiler.js 643-666). -/
def generateScheduleParameters (schedules : List (String × List SchedEntry)) : String :=
  "# Schedule parameters as variables\n" ++
  String.join (schedules.map fun (scheduleName, entries) =>
    let paramName := slugWs scheduleName
    String.join (entries.map fun e =>
      let varName := paramName ++ "_" ++ slugNonAlnum e.condition
      "\nclass " ++ varName ++ "(Variable):\n" ++
      "    value_type = float\n" ++
      "    entity = Person\n" ++
      "    definition_period = ETERNITY\n" ++
      "    label = \"" ++ scheduleName ++ " - " ++ e.condition ++ "\"\n" ++
      "    default_value = " ++ renderOptDec e.amount ++ "\n"))

/-- The generated-file header (compiler.js 293-304 and 921-932) around the
interpolated `new Date().toLocaleDateString("en-AU")` value. -/
def openFiscaHeaderPre : String :=
  "\"\"\"\nGenerated OpenFisca code from Courgette rules\nCreated: "

def openFiscaHeaderPost : String :=
  "\n\nNote: This generated code should be validated with OpenFisca\x27s type checker\n" ++
  "Run: openfisca test [this_file.py] --verbose\n\"\"\"\n\n" ++
  "from openfisca_core.model_api import *\n" ++
  "from openfisca_core.periods import MONTH, YEAR, DAY, ETERNITY\n\n"

/-- `compileToOpenFisca`, second variant (compiler.js 829-956).  The JS
reads the clock (`new Date().toLocaleDateString("en-AU")`, line 923); the
formatted date is therefore an explicit argument here. -/
def compileToOpenFisca2 (courgette : String) (dateStr : String) : String :=
  let st := collect2 (splitLines courgette)
  openFiscaHeaderPre ++ dateStr ++ openFiscaHeaderPost ++
  generateVariableDefinitions guessVariableType2 st.vars ++ "\n" ++
  (if st.schedules.length > 0 then generateScheduleParameters st.schedules ++ "\n"
   else "") ++
  String.join (st.scenarios.map fun sc =>
    generateScenarioCode2 sc.name sc.conditions sc.outcomes st.schedules)

/-- `compileToOpenFisca`, first variant (compiler.js 291-373): scenario code
is appended to the header-initialised output inline, and the variable
definitions are prepended at the end (line 370). -/
def compileToOpenFisca1 (courgette : String) (dateStr : String) : String :=
  let st := collect1 (splitLines courgette)
  generateVariableDefinitions guessVariableType1 st.vars ++ "\n\n" ++
  openFiscaHeaderPre ++ dateStr ++ openFiscaHeaderPost ++
  String.join (st.scenarios.map fun sc =>
    generateScenarioCode1 sc.name sc.conditions sc.outcomes)

/-! ## Semantics of the generated formulas

The generated eligibility formula is a Python expression over comparisons,
`and`/`or`/`not` and `person(…)` reads.  It is parsed into a small AST
(kernel-computable) and evaluated over an environment `String → ℚ`;
Python booleans are their numeric values (`True == 1`, `False == 0`), and
`none` models a Python syntax error: an invalid formula has no value. -/

inductive PyTok where
  | lpar | rpar | comma
  | id (s : String)
  | num (d : DecNum)
  | strLit (s : String)
  | op (s : String)
deriving DecidableEq, Repr

def pyLexAux : ℕ → List Char → Option (List PyTok)
  | 0, _ => none
  | _ + 1, [] => some []
  | fuel + 1, c :: rest =>
    if isWs c then pyLexAux fuel rest
    else if c = '(' then (pyLexAux fuel rest).map (PyTok.lpar :: ·)
    else if c = ')' then (pyLexAux fuel rest).map (PyTok.rpar :: ·)
    else if c = ',' then (pyLexAux fuel rest).map (PyTok.comma :: ·)
    else if c = '\'' then
      let inner := rest.takeWhile (fun d => d ≠ '\'')
      match rest.dropWhile (fun d => d ≠ '\'') with
      | _ :: tail => (pyLexAux fuel tail).map (PyTok.strLit ⟨inner⟩ :: ·)
      | [] => none
    else if c.isDigit then
      let intRun := (c :: rest).takeWhile Char.isDigit
      let r1 := (c :: rest).dropWhile Char.isDigit
      match r1 with
      | '.' :: r2 =>
        let frac := r2.takeWhile Char.isDigit
        if frac.isEmpty then none
        else
          (pyLexAux fuel (r2.dropWhile Char.isDigit)).map
            (PyTok.num ⟨digitsVal (intRun ++ frac), frac.length⟩ :: ·)
      | _ => (pyLexAux fuel r1).map (PyTok.num ⟨digitsVal intRun, 0⟩ :: ·)
    else if c.isAlpha || c = '_' then
      let run := (c :: rest).takeWhile isWordChar
      (pyLexAux fuel ((c :: rest).dropWhile isWordChar)).map (PyTok.id ⟨run⟩ :: ·)
    else if c = '=' ∨ c = '!' ∨ c = '<' ∨ c = '>' then
      match rest with
      | '=' :: r2 => (pyLexAux fuel r2).map (PyTok.op ⟨[c, '=']⟩ :: ·)
      | _ =>
        if c = '<' ∨ c = '>' then (pyLexAux fuel rest).map (PyTok.op ⟨[c]⟩ :: ·)
        else none
    else none

def pyLex (s : String) : Option (List PyTok) := pyLexAux (s.data.length + 1) s.data

inductive PyExpr where
  | num (d : DecNum)
  | pvar (v : String)
  | pbool (b : Bool)
  | cmp (op : String) (a b : PyExpr)
  | pnot (a : PyExpr)
  | pand (a b : PyExpr)
  | por (a b : PyExpr)
deriving DecidableEq, Repr

mutual

def pyPrimary : ℕ → List PyTok → Option (PyExpr × List PyTok)
  | 0, _ => none
  | fuel + 1, toks =>
    match toks with
    | .lpar :: ts =>
      match pyOr fuel ts with
      | some (e, .rpar :: ts2) => some (e, ts2)
      | _ => none
    | .id "person" :: .lpar :: .strLit v :: .comma :: .id "period" :: .rpar :: ts =>
      some (.pvar v, ts)
    | .id "True" :: ts => some (.pbool true, ts)
    | .id "False" :: ts => some (.pbool false, ts)
    | .id "not" :: _ => none
    | .id "and" :: _ => none
    | .id "or" :: _ => none
    | .id v :: ts => some (.pvar v, ts)
    | .num d :: ts => some (.num d, ts)
    | _ => none

def pyCmp : ℕ → List PyTok → Option (PyExpr × List PyTok)
  | 0, _ => none
  | fuel + 1, toks => do
    let (a, ts) ← pyPrimary fuel toks
    match ts with
    | .op o :: ts2 => do
      let (b, ts3) ← pyPrimary fuel ts2
      some (.cmp o a b, ts3)
    | _ => some (a, ts)

def pyNot : ℕ → List PyTok → Option (PyExpr × List PyTok)
  | 0, _ => none
  | fuel + 1, toks =>
    match toks with
    | .id "not" :: ts => do
      let (a, ts2) ← pyNot fuel ts
      some (.pnot a, ts2)
    | _ => pyCmp fuel toks

def pyAndRest : ℕ → PyExpr → List PyTok → Option (PyExpr × List PyTok)
  | 0, _, _ => none
  | fuel + 1, a, toks =>
    match toks with
    | .id "and" :: ts => do
      let (b, ts2) ← pyNot fuel ts
      pyAndRest fuel (.pand a b) ts2
    | _ => some (a, toks)

def pyAnd : ℕ → List PyTok → Option (PyExpr × List PyTok)
  | 0, _ => none
  | fuel + 1, toks => do
    let (a, ts) ← pyNot fuel toks
    pyAndRest fuel a ts

def pyOrRest : ℕ → PyExpr → List PyTok → Option (PyExpr × List PyTok)
  | 0, _, _ => none
  | fuel + 1, a, toks =>
    match toks with
    | .id "or" :: ts => do
      let (b, ts2) ← pyAnd fuel ts
      pyOrRest fuel (.por a b) ts2
    | _ => some (a, toks)

def pyOr : ℕ → List PyTok → Option (PyExpr × List PyTok)
  | 0, _ => none
  | fuel + 1, toks => do
    let (a, ts) ← pyAnd fuel toks
    pyOrRest fuel a ts

end

/-- Parse a complete Python expression (`none` on any syntax error). -/
def pyParse (s : String) : Option PyExpr := do
  let toks ← pyLex s
  match pyOr (2 * toks.length + 2) toks with
  | some (e, []) => some e
  | _ => none

/-- Value semantics: comparisons yield `1`/`0`; `and`/`or` return one of
their operand values as Python does; truthiness is `≠ 0`. -/
def pyEval (env : String → ℚ) : PyExpr → ℚ
  | .num d => d.toRat
  | .pvar v => env v
  | .pbool b => if b then 1 else 0
  | .cmp o a b =>
    let x := pyEval env a
    let y := pyEval env b
    if o = "==" then (if x = y then 1 else 0)
    else if o = "!=" then (if x ≠ y then 1 else 0)
    else if o = "<=" then (if x ≤ y then 1 else 0)
    else if o = ">=" then (if y ≤ x then 1 else 0)
    else if o = "<" then (if x < y then 1 else 0)
    else if o = ">" then (if y < x then 1 else 0)
    else 0
  | .pnot a => if pyEval env a = 0 then 1 else 0
  | .pand a b => if pyEval env a = 0 then pyEval env a else pyEval env b
  | .por a b => if pyEval env a = 0 then pyEval env b else pyEval env a

/-- The value returned by the generated eligibility formula: the emitted
`return` expression is the parenthesised conjunction of the fixed
conditions (`eligClassCode`); with no conditions the formula returns
`True`. -/
def eligValue (fix : String → String) (conditions : List String)
    (env : String → ℚ) : Option ℚ :=
  if conditions.length > 0 then
    (pyParse ("(" ++
      joinSp ((conditions.enum.map fun (idx, c) =>
        (if idx > 0 then "and " else "") ++ "(" ++ fix c ++ ")")) ++
      ")")).map (pyEval env)
  else some 1

def eligValue1 (conditions : List String) (env : String → ℚ) : Option ℚ :=
  eligValue fixedCondition1 conditions env

def eligValue2 (conditions : List String) (env : String → ℚ) : Option ℚ :=
  eligValue fixedCondition2 conditions env

/-- Value of one schedule-dispatch branch condition. -/
def schedCondValue (condition : String) (env : String → ℚ) : Option ℚ :=
  (pyParse (parseScheduleCondition condition)).map (pyEval env)

/-- The `if`/`elif`/`else` schedule dispatch of the second variant payment
formula: the first entry whose condition is truthy supplies the schedule
parameter variable, else `0`. -/
def schedDispatch (schedName : String) (env : String → ℚ) :
    List SchedEntry → Option ℚ
  | [] => some 0
  | e :: rest => do
    let v ← schedCondValue e.condition env
    if v ≠ 0 then some (env (slugWs schedName ++ "_" ++ slugNonAlnum e.condition))
    else schedDispatch schedName env rest

/-- Value of the second-variant generated payment formula
(compiler.js 758-822) for one scenario: `0` when ineligible, then the base
amount (fixed, schedule dispatch, or `0`), then each declared reduction in
order — each applied only under its `if income > threshold:` guard, with
`max(0, …)` clamping.  A `NaN` base amount is modelled as `none`. -/
def paymentValue2 (sc : CScenario) (schedules : List (String × List SchedEntry))
    (env : String → ℚ) : Option ℚ := do
  let elig ← eligValue2 sc.conditions env
  if elig = 0 then some 0
  else do
    let base ←
      match findPayment sc.outcomes with
      | some (some d, _) => some d.toRat
      | some (none, _) => none
      | none =>
        match findSched sc.outcomes with
        | some name =>
          match mapGet schedules name with
          | some entries =>
            if entries.length > 0 then schedDispatch name env entries else some 0
          | none => some 0
        | none => some 0
    some ((findReductions sc.outcomes).foldl
      (fun amount r =>
        match r.2 with
        | some t =>
          if env "income" > t.toRat then
            max 0 (amount - (env "income" - t.toRat) * ((r.1 : ℚ) / 100))
          else amount
        | none => amount)
      base)

/-- Value of the first-variant generated payment formula (compiler.js
240-285): the class exists only for fixed or schedule outcomes (`none`
otherwise), the schedule branch emits `base_amount = 0`, and reductions are
emitted as TODO comments only — the base amount is returned unchanged. -/
def paymentValue1 (sc : CScenario) (env : String → ℚ) : Option ℚ :=
  if (findPayment sc.outcomes).isNone ∧ (findSched sc.outcomes).isNone then none
  else do
    let elig ← eligValue1 sc.conditions env
    if elig = 0 then some 0
    else
      match findPayment sc.outcomes with
      | some (some d, _) => some d.toRat
      | some (none, _) => none
      | none => some 0

/-! ## Validator (`validator.js`)

`validateCourgette` (validator.js 20-297) is a first collection pass over
all lines followed by a stateful second pass.  Diagnostics carry 1-based
line, 1-based column, message, severity and absolute character offsets.
The `definitions` and `variables` sets of the source are collected but
never read (validator.js 33, 35, 163, 194) and are omitted from the state. -/

inductive Sev where
  | error | warning | info
deriving DecidableEq, Repr

structure Diag where
  line : ℕ
  column : ℤ
  message : String
  severity : Sev
  startOffset : ℤ
  endOffset : ℤ
deriving DecidableEq, Repr

/-- `getOffset` (validator.js 574-580): sum of earlier line lengths plus one
newline each, plus the column. -/
def getOffset (lines : List String) (lineIdx : ℕ) (column : ℤ) : ℤ :=
  (((lines.take lineIdx).map (fun l => (l.data.length : ℤ) + 1)).sum) + column

/-- JS `String.prototype.indexOf` (first occurrence, `-1` if absent). -/
def jsIndexOfAux (pat : List Char) : ℕ → List Char → ℤ
  | _, [] => if pat.isEmpty then 0 else -1
  | i, s@(_ :: rest) =>
    if pat.isPrefixOf s then (i : ℤ) else jsIndexOfAux pat (i + 1) rest

def jsIndexOf (s pat : String) : ℤ := jsIndexOfAux pat.data 0 s.data

/-- JS `String.prototype.lastIndexOf`. -/
def jsLastIndexOfAux (pat : List Char) : ℕ → ℤ → List Char → ℤ
  | _, best, [] => if pat.isEmpty then best else best
  | i, best, s@(_ :: rest) =>
    if pat.isPrefixOf s then jsLastIndexOfAux pat (i + 1) (i : ℤ) rest
    else jsLastIndexOfAux pat (i + 1) best rest

def jsLastIndexOf (s pat : String) : ℤ :=
  if pat.data.isEmpty then (s.data.length : ℤ)
  else jsLastIndexOfAux pat.data 0 (-1) s.data

/-- First pass (validator.js 37-47): collect the declared schedule names. -/
def collectSchedules (lines : List String) : List String :=
  lines.foldl
    (fun acc line =>
      let trimmed := jsTrim line
      if strStarts trimmed "Definition:" then acc
      else if strStarts trimmed "Schedule:" then
        let name := jsTrim ⟨trimmed.data.drop 9⟩
        if name ≠ "" then setAdd acc name else acc
      else acc)
    []

/-! ### `validateCondition` (validator.js 302-409) -/

def naturalOperators : List String :=
  ["is less than", "is greater than", "is at least", "is at most",
   "is more than", "is no more than", "is no less than",
   "is equal to", "is not equal to", "is not", "is"]

def codeOperators : List String := ["==", "!=", "<=", ">=", "<", ">"]

def hasNaturalOp (condition : String) : Bool :=
  naturalOperators.any fun op => strContains (strLower condition) op

/-- The `\s*OP\s*` test regexes of validator.js 320-323 reduce to substring
presence (both `\s*` may be empty). -/
def hasCodeOp (condition : String) : Bool :=
  codeOperators.any fun op => strContains condition op

/-- `/\bW\b/i.test(s)`. -/
def containsWordCI (w : String) (s : String) : Bool :=
  (scanFirst
    (fun prev t =>
      if boundaryL prev then
        (eatStrCI w t).bind fun r => if boundaryR r then some () else none
      else none)
    s.data).isSome

/-- `(.+?)\s+and\s+(.+)` over a suffix: some nonempty prefix, whitespace,
`and`, whitespace, then at least one remaining character. -/
def midAndTailAux : ℕ → ℕ → List Char → Bool
  | 0, _, _ => false
  | fuel + 1, consumed, s =>
    (consumed ≥ 1 ∧
      (((eatWs1 s).bind (eatStrCI "and")).bind eatWs1).elim false (fun r => ¬r.isEmpty)) ||
    match s with
    | [] => false
    | _ :: rest => midAndTailAux fuel (consumed + 1) rest

/-- Existence of a match of `/(\w+)\s+between\s+(.+?)\s+and\s+(.+)/i`
(validator.js 344). -/
def betweenArityMatch (s : List Char) : Bool :=
  (scanFirst
    (fun _ t =>
      (eatWordRun t).bind fun (_, r0) =>
      (eatWs1 r0).bind fun r1 =>
      (eatStrCI "between" r1).bind fun r2 =>
      (eatWs1 r2).bind fun r3 =>
      if midAndTailAux (r3.length + 1) 0 r3 then some () else none)
    s).isSome

def boolAlts : List String := ["true", "false", "yes", "no", "eligible"]

/-- The matched texts of `/\b(true|false|yes|no|eligible)\b/gi`, in order. -/
def boolWordMatchesAux : ℕ → Option Char → List Char → List String
  | 0, _, _ => []
  | fuel + 1, prev, s =>
    match s with
    | [] => []
    | c :: rest =>
      match
        if boundaryL prev then
          boolAlts.firstM fun w =>
            (eatStrCI w s).bind fun r =>
              if boundaryR r then some (((s.take w.data.length) : List Char), r) else none
        else none
      with
      | some (txt, r) => (⟨txt⟩ : String) :: boolWordMatchesAux fuel txt.getLast? r
      | none => boolWordMatchesAux fuel (some c) rest

/-- The boolean-spelling loop (validator.js 372-387): every matched text is
one of the alternatives up to case, so the inner branch is dead code and the
loop contributes no diagnostics; it is kept in this form for fidelity. -/
def boolSpellDiags (condition : String) (lineNum : ℕ) (columnOffset : ℤ)
    (lines : List String) (lineIdx : ℕ) : List Diag :=
  (boolWordMatchesAux (condition.data.length + 1) none condition.data).filterMap
    (fun b =>
      if strLower b ∈ boolAlts then none
      else
        let boolPos := jsIndexOf condition b
        some ⟨lineNum, columnOffset + boolPos, "Invalid boolean value: " ++ b, .warning,
              getOffset lines lineIdx (columnOffset - 1 + boolPos),
              getOffset lines lineIdx (columnOffset - 1 + boolPos + b.data.length)⟩)

/-- `^\d+(?:[,._]\d+)*(?:\.\d+)?$` — equivalently digit runs separated by
single `,`/`.`/`_` separators. -/
def amountFormatTail : ℕ → List Char → Bool
  | 0, _ => false
  | _ + 1, [] => true
  | fuel + 1, c :: rest =>
    if c = ',' ∨ c = '.' ∨ c = '_' then
      let ds := rest.takeWhile Char.isDigit
      if ds.isEmpty then false
      else amountFormatTail fuel (rest.dropWhile Char.isDigit)
    else false

def amountFormatOk (s : String) : Bool :=
  let ds := s.data.takeWhile Char.isDigit
  if ds.isEmpty then false
  else amountFormatTail (s.data.length + 1) (s.data.dropWhile Char.isDigit)

/-- Backtracking candidates of `(?:,\d{3})*` (most groups first). -/
def commaGroupRests : ℕ → List Char → List (List Char)
  | 0, s => [s]
  | fuel + 1, s =>
    match s with
    | ',' :: r =>
      if (r.take 3).length = 3 ∧ (r.take 3).all Char.isDigit then
        commaGroupRests fuel (r.drop 3) ++ [s]
      else [s]
    | _ => [s]

/-- Backtracking candidates of `(?:\.\d+)?` (with the group first). -/
def fracRests (s : List Char) : List (List Char) :=
  match s with
  | '.' :: r2 =>
    let ds := r2.takeWhile Char.isDigit
    if ds.isEmpty then [s] else [r2.dropWhile Char.isDigit, s]
  | _ => [s]

/-- A match of `\d{1,3}(?:,\d{3})*(?:\.\d+)?\b` at this position, following
the engine backtracking order; returns matched text and rest. -/
def moneyAt (s : List Char) : Option (String × List Char) :=
  let dr := (s.takeWhile Char.isDigit).length
  let ks := if dr ≥ 3 then [3, 2, 1] else if dr = 2 then [2, 1]
            else if dr = 1 then [1] else []
  ks.firstM fun k =>
    (commaGroupRests (s.length + 1) (s.drop k)).firstM fun r1 =>
      (fracRests r1).firstM fun r2 =>
        if boundaryR r2 then some ((⟨s.take (s.length - r2.length)⟩ : String), r2)
        else none

/-- All matches of `/\b(\d{1,3}(?:,\d{3})*(?:\.\d+)?)\b/g`, in order. -/
def moneyMatchesAux : ℕ → Option Char → List Char → List String
  | 0, _, _ => []
  | fuel + 1, prev, s =>
    match s with
    | [] => []
    | c :: rest =>
      match if boundaryL prev then moneyAt s else none with
      | some (txt, r) => txt :: moneyMatchesAux fuel txt.data.getLast? r
      | none => moneyMatchesAux fuel (some c) rest

/-- The monetary-amount warning loop (validator.js 390-408). -/
def moneyDiags (condition : String) (lineNum : ℕ) (columnOffset : ℤ)
    (lines : List String) (lineIdx : ℕ) : List Diag :=
  (moneyMatchesAux (condition.data.length + 1) none condition.data).filterMap
    (fun amount =>
      if (jsParseFloat (stripCommas amount)).elim false (fun d => d.geNat 1000) then
        let amountPos := jsIndexOf condition amount
        let fromIdx := max 0 (amountPos - 2)
        let before : List Char :=
          (condition.data.take amountPos.toNat).drop fromIdx.toNat
        if before.contains '$' then none
        else
          some ⟨lineNum, columnOffset + amountPos,
                "Consider using $ for monetary amounts: $" ++ amount, .warning,
                getOffset lines lineIdx (columnOffset - 1 + amountPos),
                getOffset lines lineIdx (columnOffset - 1 + amountPos + amount.data.length)⟩
      else none)

def missingCompMsg : String :=
  "Condition missing comparison (e.g., \"is less than\", \"<\", \"between\")"

/-- `validateCondition` (validator.js 302-409). -/
def validateCondition (condition : String) (lineNum : ℕ) (columnOffset : ℤ)
    (lines : List String) (lineIdx : ℕ) : List Diag :=
  let hasBetween := containsWordCI "between" condition
  let isStandaloneBoolean := isIdentTok (jsTrim condition)
  if ¬hasNaturalOp condition ∧ ¬hasCodeOp condition ∧ ¬hasBetween ∧
      ¬isStandaloneBoolean ∧ condition ≠ "" then
    [⟨lineNum, columnOffset, missingCompMsg, .error,
      getOffset lines lineIdx (columnOffset - 1),
      getOffset lines lineIdx (columnOffset - 1 + condition.data.length)⟩]
  else
    (if hasBetween ∧ ¬betweenArityMatch condition.data then
      let betweenPos := jsIndexOf (strLower condition) "between"
      [⟨lineNum, columnOffset + betweenPos,
        "Invalid \"between\" syntax. Use: variable between X and Y", .error,
        getOffset lines lineIdx (columnOffset - 1 + betweenPos),
        getOffset lines lineIdx (columnOffset - 1 + betweenPos + 7)⟩]
    else []) ++
    (if (condition.data.filter (fun c => c = '"' ∨ c = '\'')).length % 2 ≠ 0 then
      [⟨lineNum, columnOffset, "Unmatched quotes in condition", .error,
        getOffset lines lineIdx (columnOffset - 1),
        getOffset lines lineIdx (columnOffset - 1 + condition.data.length)⟩]
    else []) ++
    boolSpellDiags condition lineNum columnOffset lines lineIdx ++
    moneyDiags condition lineNum columnOffset lines lineIdx

/-! ### `validateOutcome` (validator.js 414-548) -/

/-- `/payment\s+is\s+\$?[\d,._]+/i` (validator.js 427). -/
def matchPaymentSimple (s : List Char) : Bool :=
  (scanFirst
    (fun _ t => do
      let r0 ← eatStrCI "payment" t
      let r1 ← eatWs1 r0
      let r2 ← eatStrCI "is" r1
      let r3 ← eatWs1 r2
      let r4 := ((eatChar '$' r3).getD r3)
      let _ ← eatAmountRun r4
      some ())
    s).isSome

/-- `/base\s+rate\s+is\s+\$?[\d,._]+/i` (validator.js 447). -/
def matchBaseRate (s : List Char) : Bool :=
  (scanFirst
    (fun _ t => do
      let r0 ← eatStrCI "base" t
      let r1 ← eatWs1 r0
      let r2 ← eatStrCI "rate" r1
      let r3 ← eatWs1 r2
      let r4 ← eatStrCI "is" r3
      let r5 ← eatWs1 r4
      let r6 := ((eatChar '$' r5).getD r5)
      let _ ← eatAmountRun r6
      some ())
    s).isSome

/-- First match of `/\$?([\d,._]+)/` — the capture is the leftmost amount
run (validator.js 428, 448, 521). -/
def firstAmountRun (s : List Char) : Option String :=
  scanFirst (fun _ t => (eatAmountRun t).map (fun p => p.1)) s

/-- `reduces?` / `cents?` optional-`s` forms. -/
def eatOptS (r : List Char) : List Char :=
  (eatStrCI "s" r).getD r

/-- `/(?:payment\s+)?reduces?\s+by\s+\d+\s+cents?\s+per\s+dollar/i`
(validator.js 486); the optional `payment\s+` prefix is subsumed by
scanning every position. -/
def matchReduceCheck (s : List Char) : Bool :=
  (scanFirst
    (fun _ t => do
      let r0 ← eatStrCI "reduce" t
      let r1 := eatOptS r0
      let r2 ← eatWs1 r1
      let r3 ← eatStrCI "by" r2
      let r4 ← eatWs1 r3
      let (_, r5) ← eatDigitRun r4
      let r6 ← eatWs1 r5
      let r7 ← eatStrCI "cent" r6
      let r8 := eatOptS r7
      let r9 ← eatWs1 r8
      let r10 ← eatStrCI "per" r9
      let r11 ← eatWs1 r10
      let _ ← eatStrCI "dollar" r11
      some ())
    s).isSome

/-- The `cents?\s+per\s+dollar\s+over\s+\$?([\d,._]+)` tail of the
validator reduction pattern, starting right after the captured digits. -/
def matchReductionVTail (r5 : List Char) : Option String := do
  let r6 ← eatWs1 r5
  let r7 ← eatStrCI "cent" r6
  let r8 := eatOptS r7
  let r9 ← eatWs1 r8
  let r10 ← eatStrCI "per" r9
  let r11 ← eatWs1 r10
  let r12 ← eatStrCI "dollar" r11
  let r13 ← eatWs1 r12
  let r14 ← eatStrCI "over" r13
  let r15 ← eatWs1 r14
  let r16 := ((eatChar '$' r15).getD r15)
  let (thr, _) ← eatAmountRun r16
  some thr

/-- `/reduces?\s+by\s+(\d+)\s+cents?\s+per\s+dollar\s+over\s+\$?([\d,._]+)/i`
(validator.js 487). -/
def matchReductionV (s : List Char) : Option (String × String) :=
  scanFirst
    (fun _ t => do
      let r0 ← eatStrCI "reduce" t
      let r1 := eatOptS r0
      let r2 ← eatWs1 r1
      let r3 ← eatStrCI "by" r2
      let r4 ← eatWs1 r3
      let (cents, r5) ← eatDigitRun r4
      let thr ← matchReductionVTail r5
      some (cents, thr))
    s

/-- `/(?:payment\s+)?(?:cuts?\s*out|ceases?)\s+at\s+\$?([\d,._]+)/i`
(validator.js 520). -/
def matchCutout (s : List Char) : Bool :=
  (scanFirst
    (fun _ t => do
      let r1 ←
        (do
          let a0 ← eatStrCI "cut" t
          let a1 := eatOptS a0
          eatStrCI "out" (eatWs0 a1)).orElse
        fun _ => do
          let b0 ← eatStrCI "cease" t
          some (eatOptS b0)
      let r2 ← eatWs1 r1
      let r3 ← eatStrCI "at" r2
      let r4 ← eatWs1 r3
      let r5 := ((eatChar '$' r4).getD r4)
      let _ ← eatAmountRun r5
      some ())
    s).isSome

/-- `validateOutcome` (validator.js 414-548): eligibility, payment amount,
base rate, schedule reference (checked against the collected schedule
names), reduction, cutout, else an unrecognised-outcome warning. -/
def validateOutcome (outcome : String) (lineNum : ℕ) (columnOffset : ℤ)
    (lines : List String) (lineIdx : ℕ) (schedules : List String) : List Diag :=
  if (matchEligEq outcome.data).isSome ∨ (matchEligIs "eligible" outcome.data).isSome ∨
      (matchEligIs "yes" outcome.data).isSome ∨ (matchEligIs "true" outcome.data).isSome then
    []
  else if matchPaymentSimple outcome.data then
    match firstAmountRun outcome.data with
    | some amount =>
      if ¬amountFormatOk amount then
        let amountPos := jsIndexOf outcome amount
        [⟨lineNum, columnOffset + amountPos, "Invalid payment amount format", .error,
          getOffset lines lineIdx (columnOffset - 1 + amountPos),
          getOffset lines lineIdx (columnOffset - 1 + amountPos + amount.data.length)⟩]
      else []
    | none => []
  else if matchBaseRate outcome.data then
    match firstAmountRun outcome.data with
    | some amount =>
      if ¬amountFormatOk amount then
        let amountPos := jsIndexOf outcome amount
        [⟨lineNum, columnOffset + amountPos, "Invalid base rate amount format", .error,
          getOffset lines lineIdx (columnOffset - 1 + amountPos),
          getOffset lines lineIdx (columnOffset - 1 + amountPos + amount.data.length)⟩]
      else []
    | none => []
  else if (matchScheduleRef outcome.data).isSome then
    match matchScheduleRef outcome.data with
    | some cap =>
      let scheduleName := jsTrim cap
      if scheduleName ∉ schedules then
        let schedulePos := jsIndexOf outcome scheduleName
        [⟨lineNum, columnOffset + schedulePos,
          "Schedule \x27" ++ scheduleName ++ "\x27 not defined", .error,
          getOffset lines lineIdx (columnOffset - 1 + schedulePos),
          getOffset lines lineIdx (columnOffset - 1 + schedulePos + scheduleName.data.length)⟩]
      else []
    | none => []
  else if matchReduceCheck outcome.data then
    match matchReductionV outcome.data with
    | some (cents, threshold) =>
      (if digitsVal cents.data > 100 then
        let centsPos := jsIndexOf outcome cents
        [⟨lineNum, columnOffset + centsPos,
          "Reduction rate cannot exceed 100 cents per dollar", .warning,
          getOffset lines lineIdx (columnOffset - 1 + centsPos),
          getOffset lines lineIdx (columnOffset - 1 + centsPos + cents.data.length)⟩]
      else []) ++
      (if ¬amountFormatOk threshold then
        let thresholdPos := jsLastIndexOf outcome threshold
        [⟨lineNum, columnOffset + thresholdPos, "Invalid threshold amount format", .error,
          getOffset lines lineIdx (columnOffset - 1 + thresholdPos),
          getOffset lines lineIdx (columnOffset - 1 + thresholdPos + threshold.data.length)⟩]
      else [])
    | none => []
  else if matchCutout outcome.data then
    match firstAmountRun outcome.data with
    | some amount =>
      if ¬amountFormatOk amount then
        let amountPos := jsIndexOf outcome amount
        [⟨lineNum, columnOffset + amountPos, "Invalid cutout amount format", .error,
          getOffset lines lineIdx (columnOffset - 1 + amountPos),
          getOffset lines lineIdx (columnOffset - 1 + amountPos + amount.data.length)⟩]
      else []
    | none => []
  else
    [⟨lineNum, columnOffset,
      "Unrecognised outcome format. Expected: eligibility (is eligible), payment amount, schedule reference, or reduction rule",
      .warning,
      getOffset lines lineIdx (columnOffset - 1),
      getOffset lines lineIdx (columnOffset - 1 + outcome.data.length)⟩]

/-! ### The second-pass document walk (validator.js 50-282) -/

inductive BlockKind where
  | scenario | definition | schedule
deriving DecidableEq, Repr

structure VState where
  currentBlock : Option BlockKind
  blockStartLine : ℕ
  hasConditions : Bool
  hasOutcomes : Bool
  expectingListItems : Bool
  indentLevel : ℕ
deriving DecidableEq, Repr

/-- validator.js 25-30; `blockStartLine` is initialised to `-1` in the JS
but only ever read while a block is open (when it is ≥ 1), so `0` serves as
the sentinel here. -/
def initVState : VState := ⟨none, 0, false, false, false, 0⟩

def tabMsg : String := "Use spaces instead of tabs for indentation"

/-- The tab check (validator.js 56-65), applied to the raw line. -/
def tabDiags (lines : List String) (idx : ℕ) (line : String) : List Diag :=
  if strContains line "\t" then
    let tcol := jsIndexOf line "\t"
    [⟨idx + 1, tcol + 1, tabMsg, .warning,
      getOffset lines idx tcol, getOffset lines idx (tcol + 1)⟩]
  else []

def missingOutcomeMsg : String := "Scenario missing outcome statements (Then...)"

def missingOutcomeDiag (lines : List String) (blockStartLine : ℕ) : Diag :=
  ⟨blockStartLine, 1, missingOutcomeMsg, .error,
   getOffset lines (blockStartLine - 1) 0,
   getOffset lines (blockStartLine - 1)
     ((lines.getD (blockStartLine - 1) "").data.length)⟩

/-- The `Scenario:` header branch (validator.js 74-112): first the
missing-outcome check of the previous scenario, then the name checks. -/
def scenarioHeaderStep (lines : List String) (idx : ℕ) (s : VState)
    (line trimmed : String) : VState × List Diag :=
  let prevDiag :=
    if s.currentBlock = some .scenario ∧ ¬s.hasOutcomes then
      [missingOutcomeDiag lines s.blockStartLine]
    else []
  let name := jsTrim ⟨trimmed.data.drop 9⟩
  let nameDiags :=
    if name = "" then
      [⟨idx + 1, 10, "Scenario name is required", .error,
        getOffset lines idx 9, getOffset lines idx (line.data.length : ℤ)⟩]
    else if ¬(name.data.headD ' ').isUpper then
      [⟨idx + 1, 10, "Scenario names should start with a capital letter", .warning,
        getOffset lines idx 9, getOffset lines idx (9 + (name.data.length : ℤ))⟩]
    else []
  ({ s with currentBlock := some .scenario, blockStartLine := idx + 1,
            hasConditions := false, hasOutcomes := false },
   prevDiag ++ nameDiags)

def definitionHeaderStep (lines : List String) (idx : ℕ) (s : VState)
    (line trimmed : String) : VState × List Diag :=
  let name := jsTrim ⟨trimmed.data.drop 11⟩
  let ds :=
    if name = "" then
      [⟨idx + 1, 12, "Definition term is required", .error,
        getOffset lines idx 11, getOffset lines idx (line.data.length : ℤ)⟩]
    else []
  ({ s with currentBlock := some .definition, blockStartLine := idx + 1 }, ds)

def scheduleHeaderStep (lines : List String) (idx : ℕ) (s : VState)
    (line trimmed : String) : VState × List Diag :=
  let name := jsTrim ⟨trimmed.data.drop 9⟩
  let ds :=
    if name = "" then
      [⟨idx + 1, 10, "Schedule name is required", .error,
        getOffset lines idx 9, getOffset lines idx (line.data.length : ℤ)⟩]
    else []
  ({ s with currentBlock := some .schedule, blockStartLine := idx + 1 }, ds)

def orMsg : String := "Or cannot be used before any conditions"

/-- The condition-keyword branch inside a scenario (validator.js 149-177).
The keyword and condition come from `split(/\s+/)`, so inner whitespace in
the condition is collapsed.  Note the order: for a non-group line,
`hasConditions` is set **before** the `Or` check. -/
def condKeywordStep (lines : List String) (idx : ℕ) (s : VState)
    (trimmed : String) (leadingSpaces : ℕ) : VState × List Diag :=
  let parts := splitWs trimmed
  let keyword := parts.headD ""
  let condition := joinSp parts.tail
  let opener := strEnds condition "these are true:" ∨ strEnds condition "the following:"
  let s1 :=
    if opener then { s with expectingListItems := true, indentLevel := leadingSpaces }
    else { s with hasConditions := true }
  let condDiags :=
    if opener then []
    else validateCondition condition (idx + 1) ((keyword.data.length : ℤ) + 1) lines idx
  let orDiags :=
    if keyword = "Or" ∧ ¬s1.hasConditions then
      [⟨idx + 1, 1, orMsg, .error,
        getOffset lines idx 0, getOffset lines idx (keyword.data.length : ℤ)⟩]
    else []
  (s1, condDiags ++ orDiags)

def listItemMsg : String :=
  "List items must follow a group declaration (e.g., \"any of these are true:\")"

/-- The list-item branch (validator.js 180-195). -/
def listItemStep (lines : List String) (idx : ℕ) (s : VState)
    (trimmed : String) (leadingSpaces : ℕ) : VState × List Diag :=
  let listErr :=
    if ¬s.expectingListItems then
      [⟨idx + 1, (leadingSpaces : ℤ) + 1, listItemMsg, .error,
        getOffset lines idx (leadingSpaces : ℤ),
        getOffset lines idx ((leadingSpaces : ℤ) + 2)⟩]
    else []
  let condition := jsTrim ⟨trimmed.data.drop 2⟩
  (s, listErr ++
    validateCondition condition (idx + 1) ((leadingSpaces : ℤ) + 3) lines idx)

def outcomesAfterCondMsg : String := "Outcomes (Then) must follow conditions (When/Given)"

/-- The outcome branch (validator.js 198-215); only `Then` lines reach it
because `And` lines are consumed by the condition-keyword branch. -/
def outcomeStep (schedules : List String) (lines : List String) (idx : ℕ) (s : VState)
    (trimmed : String) : VState × List Diag :=
  let noCondErr :=
    if ¬s.hasConditions then
      [⟨idx + 1, 1, outcomesAfterCondMsg, .error,
        getOffset lines idx 0, getOffset lines idx 4⟩]
    else []
  let outcome := ((matchKwWs thenKws trimmed).map (·.2)).getD trimmed
  let col := jsIndexOf trimmed outcome + 1
  ({ s with hasOutcomes := true, expectingListItems := false },
   noCondErr ++ validateOutcome outcome (idx + 1) col lines idx schedules)

def invalidScenarioMsg : String := "Expected When, Given, And, Or, Then, or list item (-)"

/-- Scenario-body dispatch (validator.js 147-227). -/
def scenarioBodyStep (schedules : List String) (lines : List String) (idx : ℕ)
    (s : VState) (trimmed : String) (leadingSpaces : ℕ) : VState × List Diag :=
  if (matchKwWs condKwsV trimmed).isSome then
    condKeywordStep lines idx s trimmed leadingSpaces
  else if strStarts trimmed "- " then
    listItemStep lines idx s trimmed leadingSpaces
  else if (matchKwWs thenKws trimmed).isSome then
    outcomeStep schedules lines idx s trimmed
  else if ¬strStarts trimmed "#" then
    (s, [⟨idx + 1, 1, invalidScenarioMsg, .error,
         getOffset lines idx 0, getOffset lines idx (trimmed.data.length : ℤ)⟩])
  else (s, [])

/-- The raw pieces of the schedule-entry regex match (validator.js 233). -/
def schedEntryRaw (trimmed : String) : Option (String × String × Option String) :=
  (eatStr "When" trimmed.data).bind fun r0 =>
  (eatWs1 r0).bind fun r1 =>
  schedEntrySplit r1.length [] r1

def schedFormatMsg : String :=
  "Invalid schedule entry format. Expected: \"When [condition]: $[amount] per [period]\""

def schedNoteMsg : String := "Expected schedule entry starting with \"When\" or \"Note:\""

/-- Schedule-body dispatch (validator.js 231-281). -/
def scheduleBodyStep (lines : List String) (idx : ℕ) (s : VState)
    (trimmed : String) : VState × List Diag :=
  if strStarts trimmed "When " then
    match schedEntryRaw trimmed with
    | none =>
      (s, [⟨idx + 1, 1, schedFormatMsg, .error,
           getOffset lines idx 0, getOffset lines idx (trimmed.data.length : ℤ)⟩])
    | some (_, amount, period) =>
      let amountDiags :=
        if ¬amountFormatOk amount then
          let amountStart := jsIndexOf trimmed amount
          [⟨idx + 1, amountStart + 1, "Invalid amount format", .error,
            getOffset lines idx amountStart,
            getOffset lines idx (amountStart + amount.data.length)⟩]
        else []
      let periodDiags :=
        match period with
        | some p =>
          if strLower p ∉ ["fortnight", "week", "month", "year"] then
            let ppos := jsLastIndexOf trimmed p
            [⟨idx + 1, ppos + 1,
              "Unknown period \x27" ++ p ++ "\x27. Use: fortnight, week, month, or year",
              .warning,
              getOffset lines idx ppos, getOffset lines idx (ppos + p.data.length)⟩]
          else []
        | none => []
      (s, amountDiags ++ periodDiags)
  else if ¬strStarts trimmed "Note:" ∧ ¬strStarts trimmed "#" then
    (s, [⟨idx + 1, 1, schedNoteMsg, .error,
         getOffset lines idx 0, getOffset lines idx (trimmed.data.length : ℤ)⟩])
  else (s, [])

/-- One line of the second pass (validator.js 50-282). -/
def vStep (schedules : List String) (lines : List String) (idx : ℕ) (s : VState)
    (line : String) : VState × List Diag :=
  let trimmed := jsTrim line
  let leadingSpaces := (line.data.takeWhile isWs).length
  let tds := tabDiags lines idx line
  if trimmed = "" then ({ s with expectingListItems := false }, tds)
  else if strStarts trimmed "Scenario:" then
    ((scenarioHeaderStep lines idx s line trimmed).1,
     tds ++ (scenarioHeaderStep lines idx s line trimmed).2)
  else if strStarts trimmed "Definition:" then
    ((definitionHeaderStep lines idx s line trimmed).1,
     tds ++ (definitionHeaderStep lines idx s line trimmed).2)
  else if strStarts trimmed "Schedule:" then
    ((scheduleHeaderStep lines idx s line trimmed).1,
     tds ++ (scheduleHeaderStep lines idx s line trimmed).2)
  else if s.currentBlock = some .scenario then
    ((scenarioBodyStep schedules lines idx s trimmed leadingSpaces).1,
     tds ++ (scenarioBodyStep schedules lines idx s trimmed leadingSpaces).2)
  else if s.currentBlock = some .schedule then
    ((scheduleBodyStep lines idx s trimmed).1,
     tds ++ (scheduleBodyStep lines idx s trimmed).2)
  else (s, tds)

def vRun (schedules : List String) (lines : List String) :
    ℕ → VState → List String → VState × List Diag
  | _, s, [] => (s, [])
  | i, s, l :: ls =>
    ((vRun schedules lines (i + 1) (vStep schedules lines i s l).1 ls).1,
     (vStep schedules lines i s l).2 ++
       (vRun schedules lines (i + 1) (vStep schedules lines i s l).1 ls).2)

/-- The final end-of-document check (validator.js 285-294). -/
def finalCheck (lines : List String) (s : VState) : List Diag :=
  if s.currentBlock = some .scenario ∧ ¬s.hasOutcomes then
    [missingOutcomeDiag lines s.blockStartLine]
  else []

/-- `validateCourgette` on a pre-split line list. -/
def validateLines (lines : List String) : List Diag :=
  (vRun (collectSchedules lines) lines 0 initVState lines).2 ++
    finalCheck lines (vRun (collectSchedules lines) lines 0 initVState lines).1

/-- `validateCourgette` (validator.js 20-297). -/
def validateCourgette (text : String) : List Diag :=
  validateLines (splitLines text)

/-! ## Concrete documents referenced by the verification -/

/-- The `between` test scenario of spec §8. -/
def c1Doc : List String :=
  ["Scenario: S", "When age between 16 and 24", "Then x is eligible"]

def c1Text : String :=
  "Scenario: S\nWhen age between 16 and 24\nThen x is eligible"

/-- The reduction-chaining scenario of spec §8. -/
def c2Doc : List String :=
  ["Scenario: S", "When age > 5", "Then payment is $1000 per fortnight",
   "And payment reduces by 50 cents per dollar over $200"]

/-- What the second compiler variant collects from `c2Doc`. -/
def c2Scenario : CScenario :=
  ⟨"S", ["age > 5"],
   [.payment (some ⟨1000, 0⟩) "fortnight", .reduction 50 (some ⟨200, 0⟩)]⟩

/-- What the first compiler variant collects from `c2Doc`: the reduction
line contains no `is` and is dropped. -/
def c2Scenario1 : CScenario :=
  ⟨"S", ["age > 5"], [.payment (some ⟨1000, 0⟩) "fortnight"]⟩

/-- An eligible person (`age = 10`) with the given income. -/
def c2Env (income : ℚ) : String → ℚ :=
  fun v => if v = "age" then 10 else if v = "income" then income else 0

/-- A scenario whose first condition line is a plain `Or` condition. -/
def c4Doc : List String := ["Scenario: S", "Or age > 5", "Then x is eligible"]

/-- A scenario whose first condition line is an `Or` group opener. -/
def c4DocOpener : List String :=
  ["Scenario: S", "Or any of these are true:", "- age > 5", "Then x is eligible"]

/-- A schedule reference whose name happens to match the eligibility
pattern `\w+\s*=\s*true`. -/
def c6Doc : List String :=
  ["Scenario: S", "When age > 5", "Then rate is determined by x = true"]

/-- The undeclared-schedule document of spec §8. -/
def c6DocW : List String :=
  ["Scenario: S", "When age > 5", "Then rate is determined by Missing Schedule"]

/-- A malformed condition followed by a second scenario: the missing-outcome
diagnostic for scenario `A` is emitted after the line-2 condition error but
anchored at line 1. -/
def c7Doc : List String :=
  ["Scenario: A", "When foo bar", "Scenario: B", "When age > 5", "Then x is eligible"]

/-- A sorted-output witness document with no missing-outcome diagnostic. -/
def c7DocW : List String :=
  ["Scenario: a", "When foo bar", "Then x is eligible"]

/-- An `And` condition line before any `Then`. -/
def c9DocB : List String := ["Scenario: S", "And age > 5", "Then x is eligible"]

/-- A lone reduction outcome line (no `is` substring). -/
def c9DocR : List String :=
  ["Scenario: S", "When age > 5",
   "Then payment reduces by 50 cents per dollar over $200"]

/-- An `And` reduction line following a `Then` outcome. -/
def c10Doc : List String :=
  ["Scenario: S", "When age > 5", "Then x is eligible",
   "And payment reduces by 50 cents per dollar over $200"]

/-- Lines beginning (after trim) with one of the three block headers. -/
def isHeaderLine (l : String) : Bool :=
  strStarts (jsTrim l) "Scenario:" || strStarts (jsTrim l) "Definition:" ||
    strStarts (jsTrim l) "Schedule:"

/-- Lines dispatched to the outcome branch inside a scenario: a `Then`/`And`
match that is neither a condition keyword nor a list item. -/
def isOutcomeLine (l : String) : Bool :=
  !(matchKwWs condKwsV (jsTrim l)).isSome && !(strStarts (jsTrim l) "- ") &&
    (matchKwWs thenKws (jsTrim l)).isSome

/-! ## Helper lemmas -/

theorem strDataAppend (s t : String) : (s ++ t).data = s.data ++ t.data :=
  match s, t with
  | ⟨_⟩, ⟨_⟩ => rfl

theorem strExt {s t : String} (h : s.data = t.data) : s = t := by
  cases s; cases t; cases h; rfl

theorem isPrefixOf_cons_ne {a b : Char} {p s : List Char} (h : a ≠ b) :
    List.isPrefixOf (a :: p) (b :: s) = false := by
  simp [List.isPrefixOf, h]

theorem strStarts_prefix {s p : String} (h : strStarts s p = true) :
    ∃ t, s.data = p.data ++ t := by
  have := (List.isPrefixOf_iff_prefix.mp h)
  exact this.imp fun t ht => ht.symm

theorem matchKw1_eq_some {kw s a b : String} (h : matchKw1 kw s = some (a, b)) :
    a = kw ∧ strStarts s kw = true := by
  unfold matchKw1 at h
  by_cases hs : strStarts s kw = true
  · rw [if_pos hs] at h
    rcases hd : s.data.drop kw.data.length with _ | ⟨c, r⟩ <;> rw [hd] at h
    · cases h
    · cases hw : isWs c <;> simp [hw] at h
      exact ⟨h.1.symm, hs⟩
  · rw [if_neg hs] at h; cases h

theorem matchKw1_none {kw s : String} (h : strStarts s kw = false) :
    matchKw1 kw s = none := by
  unfold matchKw1
  rw [h]
  rfl

/-- `matchKwWs` only succeeds on a keyword from its list that prefixes the
line. -/
theorem matchKwWs_eq_some {kws : List String} {trimmed kw rest : String}
    (h : matchKwWs kws trimmed = some (kw, rest)) :
    kw ∈ kws ∧ strStarts trimmed kw = true := by
  induction kws with
  | nil => cases h
  | cons k ks ih =>
    rw [matchKwWs] at h
    rcases hk : matchKw1 k trimmed with _ | v <;> rw [hk] at h
    · have := ih h
      exact ⟨List.mem_cons_of_mem _ this.1, this.2⟩
    · cases h
      have := matchKw1_eq_some hk
      exact ⟨this.1 ▸ List.mem_cons_self _ _, this.1 ▸ this.2⟩

theorem matchKwWs_none {kws : List String} {trimmed : String}
    (h : ∀ kw ∈ kws, strStarts trimmed kw = false) :
    matchKwWs kws trimmed = none := by
  induction kws with
  | nil => rfl
  | cons k ks ih =>
    rw [matchKwWs, matchKw1_none (h k (List.mem_cons_self _ _))]
    exact ih fun kw hkw => h kw (List.mem_cons_of_mem _ hkw)

/-- A `Then` keyword match pins down the head characters of the line. -/
theorem then_match_shape {trimmed rest : String}
    (h : matchKwWs thenKws trimmed = some ("Then", rest)) :
    ∃ t, trimmed.data = 'T' :: 'h' :: 'e' :: 'n' :: t := by
  have h2 := matchKwWs_eq_some h
  obtain ⟨t, ht⟩ := strStarts_prefix h2.2
  exact ⟨t, ht⟩

/-- A line whose characters start with `Then` matches none of the condition
keywords and none of the block headers. -/
theorem then_shape_starts {trimmed : String} {t : List Char}
    (ht : trimmed.data = 'T' :: 'h' :: 'e' :: 'n' :: t) :
    strStarts trimmed "When" = false ∧ strStarts trimmed "Given" = false ∧
    strStarts trimmed "And" = false ∧ strStarts trimmed "Or" = false ∧
    strStarts trimmed "Scenario:" = false ∧ strStarts trimmed "Definition:" = false ∧
    strStarts trimmed "Schedule:" = false ∧ strStarts trimmed "- " = false ∧
    trimmed ≠ "" := by
  refine ⟨?_, ?_, ?_, ?_, ?_, ?_, ?_, ?_, ?_⟩
  · show List.isPrefixOf "When".data trimmed.data = false
    rw [ht]; exact isPrefixOf_cons_ne (by decide)
  · show List.isPrefixOf "Given".data trimmed.data = false
    rw [ht]; exact isPrefixOf_cons_ne (by decide)
  · show List.isPrefixOf "And".data trimmed.data = false
    rw [ht]; exact isPrefixOf_cons_ne (by decide)
  · show List.isPrefixOf "Or".data trimmed.data = false
    rw [ht]; exact isPrefixOf_cons_ne (by decide)
  · show List.isPrefixOf "Scenario:".data trimmed.data = false
    rw [ht]; exact isPrefixOf_cons_ne (by decide)
  · show List.isPrefixOf "Definition:".data trimmed.data = false
    rw [ht]; exact isPrefixOf_cons_ne (by decide)
  · show List.isPrefixOf "Schedule:".data trimmed.data = false
    rw [ht]; exact isPrefixOf_cons_ne (by decide)
  · show List.isPrefixOf "- ".data trimmed.data = false
    rw [ht]; exact isPrefixOf_cons_ne (by decide)
  · intro hemp
    rw [hemp] at ht
    exact absurd ht (by simp [String.data])

theorem matchKwWs_then_not_cond {trimmed rest : String}
    (h : matchKwWs thenKws trimmed = some ("Then", rest)) :
    matchKwWs condKwsV trimmed = none ∧ matchKwWs condKws trimmed = none := by
  obtain ⟨t, ht⟩ := then_match_shape h
  have hs := then_shape_starts ht
  constructor
  · exact matchKwWs_none (by
      intro kw hkw
      simp only [condKwsV, List.mem_cons, List.mem_singleton] at hkw
      rcases hkw with rfl | rfl | rfl | rfl | h0
      · exact hs.1
      · exact hs.2.1
      · exact hs.2.2.1
      · exact hs.2.2.2.1
      · cases h0)
  · exact matchKwWs_none (by
      intro kw hkw
      simp only [condKws, List.mem_cons, List.mem_singleton] at hkw
      rcases hkw with rfl | rfl | rfl | h0
      · exact hs.1
      · exact hs.2.1
      · exact hs.2.2.1
      · cases h0)

/-- C3 counterexample: the second compiler variant maps `is_student` to
`{bool, MONTH}`, not the claimed `{bool, DAY}`. -/
theorem c3_counterexample :
    guessVariableType2 "is_student" = (VType.bool, VPeriod.MONTH) ∧
    (VType.bool, VPeriod.MONTH) ≠ (VType.bool, VPeriod.DAY) := by
  constructor
  · rfl
  · decide

/-- C3 (amended): `guessVariableType` is a pure function applied through a
fixed ordered rule list; `residence_years` yields `{int, YEAR}` in both
compiler variants, while `is_student` yields `{bool, DAY}` in the first
variant but `{bool, MONTH}` in the second (whose boolean-indicator rule
assigns period `MONTH`). -/
theorem c3_amended :
    guessVariableType1 "residence_years" = (VType.int, VPeriod.YEAR) ∧
    guessVariableType2 "residence_years" = (VType.int, VPeriod.YEAR) ∧
    guessVariableType1 "is_student" = (VType.bool, VPeriod.DAY) ∧
    guessVariableType2 "is_student" = (VType.bool, VPeriod.MONTH) :=
  ⟨rfl, rfl, rfl, rfl⟩

/-- C1, evaluation at the failing input (`Scenario: S / When age between 16
and 24 / Then x is eligible`): the `between` condition is rewritten to
`age >= 16) and (age <= 24` (bounds on the single variable before
`between`), but the later `/\s*<\s*/` and `/\s*>\s*/` spacing passes split
`>=` into `> =` and `<=` into `< =`; the emitted eligibility formula
contains `(age > = 16) and (age < = 24)`, which is not a valid comparison,
so the formula has no value at any input (in particular not the claimed
true/false values at ages 16/24/15/25). -/
theorem c1_code_bug_eval :
    parseCondition2 "age between 16 and 24" = "age > = 16) and (age < = 24" ∧
    (collect2 c1Doc).scenarios =
      [⟨"S", ["age > = 16) and (age < = 24"], [.eligibility "x"]⟩] ∧
    strContains (compileToOpenFisca2 c1Text "01/01/2025")
      "(age > = 16) and (age < = 24)" = true ∧
    (∀ env : String → ℚ, eligValue2 ["age > = 16) and (age < = 24"] env = none) := by
  refine ⟨rfl, rfl, rfl, fun env => ?_⟩
  have h0 : eligValue2 ["age > = 16) and (age < = 24"] env =
      (pyParse "((age > = 16) and (age < = 24))").map (pyEval env) := rfl
  rw [h0, show pyParse "((age > = 16) and (age < = 24))" = none from rfl]
  rfl

/-- Shared C2 fact: the eligibility formula of the collected scenario
(`(age > 5)` at `age = 10`) evaluates to `1` for every income. -/
theorem c2EligOne (inc : ℚ) : eligValue2 c2Scenario.conditions (c2Env inc) = some 1 := by
  have hp : pyParse "((age > 5))" = some (.cmp ">" (.pvar "age") (.num ⟨5, 0⟩)) := rfl
  have h0 : eligValue2 c2Scenario.conditions (c2Env inc) =
      (pyParse "((age > 5))").map (pyEval (c2Env inc)) := rfl
  rw [h0, hp]
  simp [pyEval, DecNum.toRat, c2Env]
  norm_num

theorem c2EligOne1 (inc : ℚ) : eligValue1 c2Scenario1.conditions (c2Env inc) = some 1 := by
  have hp : pyParse "((age > 5))" = some (.cmp ">" (.pvar "age") (.num ⟨5, 0⟩)) := rfl
  have h0 : eligValue1 c2Scenario1.conditions (c2Env inc) =
      (pyParse "((age > 5))").map (pyEval (c2Env inc)) := rfl
  rw [h0, hp]
  simp [pyEval, DecNum.toRat, c2Env]
  norm_num

/-- C2 counterexample: on the claimed input, the first compiler variant
(whose `generateScenarioCode` is cited at compiler.js 274-281) does not
record the reduction line at all (it contains no `is`) and its generated
payment formula yields `1000`, not `900`, at income 400; and the second
variant applies a reduction only under an `if income > threshold:` guard,
so at income 0 it yields `1000` where the claimed unconditional update
`max(0, amount − (income − threshold) × cents/100)` would yield `1100`. -/
theorem c2_counterexample :
    (collect1 c2Doc).scenarios = [c2Scenario1] ∧
    paymentValue1 c2Scenario1 (c2Env 400) = some 1000 ∧ (1000 : ℚ) ≠ 900 ∧
    paymentValue2 c2Scenario [] (c2Env 0) = some 1000 ∧
    max (0 : ℚ) (1000 - ((0 : ℚ) - 200) * (50 / 100)) = 1100 ∧
    (1000 : ℚ) ≠ 1100 := by
  refine ⟨rfl, ?_, by norm_num, ?_, by norm_num, by norm_num⟩
  · unfold paymentValue1
    rw [if_neg (by
      simp [show findPayment c2Scenario1.outcomes = some (some ⟨1000, 0⟩, "fortnight")
        from rfl])]
    rw [c2EligOne1]
    simp [show findPayment c2Scenario1.outcomes = some (some ⟨1000, 0⟩, "fortnight")
      from rfl, DecNum.toRat, Option.bind]
  · unfold paymentValue2
    rw [c2EligOne]
    simp [show findPayment c2Scenario.outcomes = some (some ⟨1000, 0⟩, "fortnight")
        from rfl,
      show findReductions c2Scenario.outcomes = [(50, some ⟨200, 0⟩)] from rfl,
      DecNum.toRat, c2Env, Option.bind]

/-- C2 (amended): the reduction-chaining claim holds of the second compiler
variant with the reduction update applied only when income exceeds the
threshold: the collected scenario carries the fixed payment and the
reduction in declaration order; for income above 200 the formula yields
`max(0, 1000 − (income − 200) × 50/100)` (900 at income 400), and for
income at or below 200 the amount is returned unchanged. -/
theorem c2_amended (inc : ℚ) :
    (collect2 c2Doc).scenarios = [c2Scenario] ∧
    (inc > 200 →
      paymentValue2 c2Scenario [] (c2Env inc) =
        some (max 0 (1000 - (inc - 200) * (50 / 100)))) ∧
    (inc ≤ 200 → paymentValue2 c2Scenario [] (c2Env inc) = some 1000) ∧
    paymentValue2 c2Scenario [] (c2Env 400) = some 900 := by
  refine ⟨rfl, fun h => ?_, fun h => ?_, ?_⟩
  · unfold paymentValue2
    rw [c2EligOne]
    simp [show findPayment c2Scenario.outcomes = some (some ⟨1000, 0⟩, "fortnight")
        from rfl,
      show findReductions c2Scenario.outcomes = [(50, some ⟨200, 0⟩)] from rfl,
      DecNum.toRat, c2Env, Option.bind]
    norm_num [h, le_of_lt h]
  · unfold paymentValue2
    rw [c2EligOne]
    simp [show findPayment c2Scenario.outcomes = some (some ⟨1000, 0⟩, "fortnight")
        from rfl,
      show findReductions c2Scenario.outcomes = [(50, some ⟨200, 0⟩)] from rfl,
      DecNum.toRat, c2Env, Option.bind]
    norm_num [not_lt.mpr h]
  · unfold paymentValue2
    rw [c2EligOne]
    simp [show findPayment c2Scenario.outcomes = some (some ⟨1000, 0⟩, "fortnight")
        from rfl,
      show findReductions c2Scenario.outcomes = [(50, some ⟨200, 0⟩)] from rfl,
      DecNum.toRat, c2Env, Option.bind]
    norm_num

theorem c2_amended_witness :
    ((400 : ℚ) > 200 ∧
      paymentValue2 c2Scenario [] (c2Env 400) =
        some (max 0 (1000 - ((400 : ℚ) - 200) * (50 / 100)))) ∧
    ((0 : ℚ) ≤ 200 ∧ paymentValue2 c2Scenario [] (c2Env 0) = some 1000) :=
  ⟨⟨by norm_num, (c2_amended 400).2.1 (by norm_num)⟩,
   ⟨by norm_num, (c2_amended 0).2.2.1 (by norm_num)⟩⟩

/-- C4, evaluation at the failing input (`Scenario: S / Or age > 5 / Then x
is eligible`): the first condition line starts with the keyword `Or`, yet
`validate` emits no diagnostic at all — the non-group branch sets
`hasConditions` to true before the `Or`-placement check runs
(validator.js 160 before 167).  The check does fire when the `Or` line is a
group opener, showing the message is otherwise reachable. -/
theorem c4_code_bug_eval :
    (matchKwWs ["Or"] (jsTrim (c4Doc.getD 1 ""))).isSome = true ∧
    validateLines c4Doc = [] ∧
    (∃ d ∈ validateLines c4DocOpener,
      d.message = orMsg ∧ d.severity = .error ∧ d.line = 2) := by
  refine ⟨rfl, rfl, ?_⟩
  refine ⟨⟨2, 1, orMsg, .error, 12, 14⟩, ?_, rfl, rfl, rfl⟩
  rw [show validateLines c4DocOpener =
    [⟨2, 1, orMsg, .error, 12, 14⟩,
     ⟨4, 1, outcomesAfterCondMsg, .error, 48, 52⟩] from rfl]
  exact List.mem_cons_self _ _

/-- C6 counterexample: `Then rate is determined by x = true` is an outcome
line of the claimed shape with the schedule name `N = "x = true"` never
declared, yet `validate` returns no diagnostics at all — the eligibility
pattern `\w+\s*=\s*true` matches first inside `validateOutcome`
(validator.js 417, 423-424) and the schedule check is never reached. -/
theorem c6_counterexample :
    (matchScheduleRef "rate is determined by x = true".data).map jsTrim =
      some "x = true" ∧
    collectSchedules c6Doc = [] ∧
    validateLines c6Doc = [] :=
  ⟨rfl, rfl, rfl⟩

/-- C7 counterexample: on `c7Doc` the condition error of line 2 is emitted
before the missing-outcome diagnostic of scenario `A`, which is anchored at
line 1 but emitted only when the next `Scenario:` header closes the block —
the returned list has line numbers `[2, 1]` and is not sorted. -/
theorem c7_counterexample :
    (validateLines c7Doc).map Diag.line = [2, 1] ∧
    ¬(validateLines c7Doc).Pairwise (fun a b => a.line ≤ b.line) := by
  constructor
  · rfl
  · intro h
    rw [show validateLines c7Doc =
      [⟨2, 5, missingCompMsg, .error, 16, 23⟩,
       ⟨1, 1, missingOutcomeMsg, .error, 0, 11⟩] from rfl] at h
    have := (List.pairwise_cons.mp h).1 _ (List.mem_singleton.mpr rfl)
    exact absurd this (by decide)

/-- C8 counterexample: `compileToOpenFisca` interpolates
`new Date().toLocaleDateString("en-AU")` into the generated header
(compiler.js 295 and 923), so two invocations on identical text yield
different bytes whenever the formatted dates differ — compile is not a pure
function of the input text alone. -/
theorem c8_counterexample :
    compileToOpenFisca2 "" "12/10/2026" ≠ compileToOpenFisca2 "" "13/10/2026" ∧
    compileToOpenFisca1 "" "12/10/2026" ≠ compileToOpenFisca1 "" "13/10/2026" := by
  constructor <;> decide

/-- C8 (amended): `validate` reads nothing but the text (it is modelled as
a function of the text alone), and `compile` is a pure function of the text
and the formatted current date: on identical text, outputs are
byte-identical exactly when the two invocations format the same date. -/
theorem c8_amended (t d1 d2 : String) :
    (compileToOpenFisca2 t d1 = compileToOpenFisca2 t d2 ↔ d1 = d2) ∧
    (compileToOpenFisca1 t d1 = compileToOpenFisca1 t d2 ↔ d1 = d2) := by
  constructor
  · constructor
    · intro h
      unfold compileToOpenFisca2 at h
      have h2 := congrArg String.data h
      simp only [strDataAppend, List.append_assoc] at h2
      exact strExt (List.append_cancel_right (List.append_cancel_left h2))
    · intro h; rw [h]
  · constructor
    · intro h
      unfold compileToOpenFisca1 at h
      have h2 := congrArg String.data h
      simp only [strDataAppend, List.append_assoc] at h2
      exact strExt
        (List.append_cancel_right
          (List.append_cancel_left (List.append_cancel_left (List.append_cancel_left h2))))
    · intro h; rw [h]

/-- C9 counterexample: in `Scenario: S / And age > 5 / Then x is eligible`
both the `And` and the `Then` line match `^(Then|And)\s+`, but the second
compiler variant records only one outcome — the `And` line is consumed by
the condition branch while `inConditions` holds (compiler.js 884), so the
variant does not record an outcome from every `Then`/`And` line. -/
theorem c9_counterexample :
    (collect2 c9DocB).scenarios = [⟨"S", ["age > 5"], [.eligibility "x"]⟩] ∧
    (c9DocB.filter fun l => (matchKwWs thenKws (jsTrim l)).isSome).length = 2 ∧
    ([COutcome.eligibility "x"] : List COutcome).length ≠ 2 := by
  exact ⟨rfl, rfl, by decide⟩

/-! ## Step lemmas for the compiler loops -/

theorem cPushCond1_outcomes (s : CState1) (c : String) :
    (cPushCond1 s c).outcomes = s.outcomes := by
  unfold cPushCond1
  split <;> rfl

theorem cPushCond2_outcomes (s : CState2) (c : String) :
    (cPushCond2 s c).outcomes = s.outcomes := by
  unfold cPushCond2
  split <;> rfl

theorem cBody1_is (s : CState1) (trimmed : String)
    (h : (cBody1 s trimmed).outcomes ≠ s.outcomes) :
    strContains trimmed "is" = true := by
  by_contra hc
  have hc2 : strContains trimmed "is" = false := by
    cases hcc : strContains trimmed "is"
    · rfl
    · exact absurd hcc hc
  apply h
  unfold cBody1
  rcases hm : matchKwWs condKws trimmed with _ | ⟨kw, condition⟩ <;>
    cases hinc : s.inConditions <;>
    simp only [hm, hinc, hc2, cPushCond1_outcomes] <;>
    split_ifs <;>
    simp [cPushCond1_outcomes, hc2]

theorem cBody2_then (s : CState2) (trimmed rest : String)
    (h : matchKwWs thenKws trimmed = some ("Then", rest)) :
    cBody2 s trimmed =
      { s with inConditions := false,
               outcomes := s.outcomes ++ [parseOutcome rest] } := by
  obtain ⟨t, ht⟩ := then_match_shape h
  have hs := then_shape_starts ht
  have hcond := (matchKwWs_then_not_cond h).2
  unfold cBody2
  rw [hcond, h]
  simp [hs.2.2.2.1]

theorem cBody2_and_outcome (s : CState2) (trimmed rest : String)
    (hin : s.inConditions = false)
    (h : matchKwWs thenKws trimmed = some ("And", rest)) :
    cBody2 s trimmed =
      { s with inConditions := false,
               outcomes := s.outcomes ++ [parseOutcome rest] } := by
  unfold cBody2
  rcases hm : matchKwWs condKws trimmed with _ | ⟨kw, condition⟩
  · rw [h]
    simp [hin]
  · rw [hin, h]
    simp [hin]

theorem cBody2_and_condition (s : CState2) (trimmed rest : String)
    (hin : s.inConditions = true)
    (h : matchKwWs condKws trimmed = some ("And", rest)) :
    (cBody2 s trimmed).outcomes = s.outcomes := by
  unfold cBody2
  rw [h, hin]
  simp [cPushCond2_outcomes]

/-- C9 (amended): the two compiler variants are not equivalent.  On
`Scenario: S / When age > 5 / Then payment reduces by 50 cents per dollar
over $200` the first variant records no outcome (its `Then|And` branch also
requires the raw line to contain the substring `is`, which this line lacks)
while the second records the reduction.  In general the first variant
records an outcome only from lines containing `is`; the second variant
records an outcome from every `Then` line and from every `And` line once
conditions have ended (`inConditions` false), but an `And` line while still
in conditions is recorded as a condition, not an outcome. -/
theorem c9_amended :
    (collect1 c9DocR).scenarios = [⟨"S", ["age > 5"], []⟩] ∧
    (collect2 c9DocR).scenarios =
      [⟨"S", ["age > 5"], [.reduction 50 (some ⟨200, 0⟩)]⟩] ∧
    strContains (jsTrim (c9DocR.getD 2 "")) "is" = false ∧
    (∀ (s : CState1) (trimmed : String),
      (cBody1 s trimmed).outcomes ≠ s.outcomes → strContains trimmed "is" = true) ∧
    (∀ (s : CState2) (trimmed rest : String),
      matchKwWs thenKws trimmed = some ("Then", rest) →
      cBody2 s trimmed =
        { s with inConditions := false,
                 outcomes := s.outcomes ++ [parseOutcome rest] }) ∧
    (∀ (s : CState2) (trimmed rest : String),
      s.inConditions = false → matchKwWs thenKws trimmed = some ("And", rest) →
      cBody2 s trimmed =
        { s with inConditions := false,
                 outcomes := s.outcomes ++ [parseOutcome rest] }) ∧
    (∀ (s : CState2) (trimmed rest : String),
      s.inConditions = true → matchKwWs condKws trimmed = some ("And", rest) →
      (cBody2 s trimmed).outcomes = s.outcomes) :=
  ⟨rfl, rfl, rfl, cBody1_is, cBody2_then, cBody2_and_outcome, cBody2_and_condition⟩

theorem c9_amended_witness :
    strContains "Then x is eligible" "is" = true ∧
    cBody2 initCState2 "Then rate is low" =
      { initCState2 with inConditions := false,
                         outcomes := initCState2.outcomes ++ [parseOutcome "rate is low"] } ∧
    cBody2 { initCState2 with inConditions := false } "And payment is $10" =
      { { initCState2 with inConditions := false } with
          inConditions := false,
          outcomes := ({ initCState2 with inConditions := false} : CState2).outcomes ++
            [parseOutcome "payment is $10"] } ∧
    (cBody2 initCState2 "And age > 5").outcomes = initCState2.outcomes :=
  ⟨c9_amended.2.2.2.1 initCState1 "Then x is eligible" (by decide),
   c9_amended.2.2.2.2.1 initCState2 "Then rate is low" "rate is low" rfl,
   c9_amended.2.2.2.2.2.1 { initCState2 with inConditions := false }
     "And payment is $10" "payment is $10" rfl rfl,
   c9_amended.2.2.2.2.2.2 initCState2 "And age > 5" "age > 5" rfl rfl⟩

/-! ## Step lemmas for the validator line dispatch -/

theorem condV_and_shape {trimmed rest : String}
    (h : matchKwWs condKwsV trimmed = some ("And", rest)) :
    ∃ t, trimmed.data = 'A' :: 'n' :: 'd' :: t := by
  have h2 := matchKwWs_eq_some h
  obtain ⟨t, ht⟩ := strStarts_prefix h2.2
  exact ⟨t, ht⟩

theorem and_shape_starts {trimmed : String} {t : List Char}
    (ht : trimmed.data = 'A' :: 'n' :: 'd' :: t) :
    strStarts trimmed "Scenario:" = false ∧ strStarts trimmed "Definition:" = false ∧
    strStarts trimmed "Schedule:" = false ∧ trimmed ≠ "" := by
  refine ⟨?_, ?_, ?_, ?_⟩
  · show List.isPrefixOf "Scenario:".data trimmed.data = false
    rw [ht]; exact isPrefixOf_cons_ne (by decide)
  · show List.isPrefixOf "Definition:".data trimmed.data = false
    rw [ht]; exact isPrefixOf_cons_ne (by decide)
  · show List.isPrefixOf "Schedule:".data trimmed.data = false
    rw [ht]; exact isPrefixOf_cons_ne (by decide)
  · intro hemp
    rw [hemp] at ht
    exact absurd ht (by simp [String.data])

theorem condKeywordStep_hasOutcomes (lines : List String) (idx : ℕ) (s : VState)
    (trimmed : String) (l : ℕ) :
    (condKeywordStep lines idx s trimmed l).1.hasOutcomes = s.hasOutcomes := by
  unfold condKeywordStep
  dsimp only
  split <;> rfl

theorem vStep_and_line (sch lines : List String) (idx : ℕ) (s : VState) (line rest : String)
    (hb : s.currentBlock = some .scenario)
    (h : matchKwWs condKwsV (jsTrim line) = some ("And", rest)) :
    vStep sch lines idx s line =
      ((condKeywordStep lines idx s (jsTrim line) (line.data.takeWhile isWs).length).1,
       tabDiags lines idx line ++
         (condKeywordStep lines idx s (jsTrim line) (line.data.takeWhile isWs).length).2) := by
  obtain ⟨t, ht⟩ := condV_and_shape h
  have hs := and_shape_starts ht
  unfold vStep scenarioBodyStep
  simp [hs.1, hs.2.1, hs.2.2.1, hs.2.2.2, hb, h]

theorem vStep_then_line (sch lines : List String) (idx : ℕ) (s : VState) (line rest : String)
    (hb : s.currentBlock = some .scenario)
    (h : matchKwWs thenKws (jsTrim line) = some ("Then", rest)) :
    vStep sch lines idx s line =
      ((outcomeStep sch lines idx s (jsTrim line)).1,
       tabDiags lines idx line ++ (outcomeStep sch lines idx s (jsTrim line)).2) := by
  obtain ⟨t, ht⟩ := then_match_shape h
  have hs := then_shape_starts ht
  have hcv := (matchKwWs_then_not_cond h).1
  unfold vStep scenarioBodyStep
  simp [hs.2.2.2.2.1, hs.2.2.2.2.2.1, hs.2.2.2.2.2.2.1, hs.2.2.2.2.2.2.2.1,
        hs.2.2.2.2.2.2.2.2, hb, hcv, h]

/-- C10: inside a scenario block every line whose first word is a condition
keyword (`When`, `If`, `And`, `Or`) — in particular every `And` line, even
one following a `Then` outcome line — is handled by the condition branch
(`condKeywordStep`, which runs `validateCondition` and leaves `hasOutcomes`
untouched), while a line starting with `Then` is handled by the outcome
branch (`outcomeStep`, which runs `validateOutcome`).  Concretely, in
`Scenario: S / When age > 5 / Then x is eligible / And payment reduces by
50 cents per dollar over $200` the `And` reduction line is condition-validated
and draws a missing-comparison error, although it would pass outcome
validation. -/
theorem c10_confirmed :
    (∀ (sch lines : List String) (idx : ℕ) (s : VState) (line rest : String),
      s.currentBlock = some .scenario →
      matchKwWs condKwsV (jsTrim line) = some ("And", rest) →
      vStep sch lines idx s line =
        ((condKeywordStep lines idx s (jsTrim line) (line.data.takeWhile isWs).length).1,
         tabDiags lines idx line ++
           (condKeywordStep lines idx s (jsTrim line)
             (line.data.takeWhile isWs).length).2)) ∧
    (∀ (lines : List String) (idx : ℕ) (s : VState) (trimmed : String) (l : ℕ),
      (condKeywordStep lines idx s trimmed l).1.hasOutcomes = s.hasOutcomes) ∧
    (∀ (sch lines : List String) (idx : ℕ) (s : VState) (line rest : String),
      s.currentBlock = some .scenario →
      matchKwWs thenKws (jsTrim line) = some ("Then", rest) →
      vStep sch lines idx s line =
        ((outcomeStep sch lines idx s (jsTrim line)).1,
         tabDiags lines idx line ++ (outcomeStep sch lines idx s (jsTrim line)).2)) ∧
    validateLines c10Doc = [⟨4, 4, missingCompMsg, .error, 47, 95⟩] :=
  ⟨vStep_and_line, condKeywordStep_hasOutcomes, vStep_then_line, rfl⟩

theorem c10_witness :
    vStep [] c10Doc 3 ⟨some .scenario, 1, true, true, false, 0⟩
        "And payment reduces by 50 cents per dollar over $200" =
      ((condKeywordStep c10Doc 3 ⟨some .scenario, 1, true, true, false, 0⟩
          (jsTrim "And payment reduces by 50 cents per dollar over $200")
          ("And payment reduces by 50 cents per dollar over $200".data.takeWhile
            isWs).length).1,
       tabDiags c10Doc 3 "And payment reduces by 50 cents per dollar over $200" ++
         (condKeywordStep c10Doc 3 ⟨some .scenario, 1, true, true, false, 0⟩
           (jsTrim "And payment reduces by 50 cents per dollar over $200")
           ("And payment reduces by 50 cents per dollar over $200".data.takeWhile
             isWs).length).2) ∧
    vStep [] c10Doc 2 ⟨some .scenario, 1, true, false, false, 0⟩ "Then x is eligible" =
      ((outcomeStep [] c10Doc 2 ⟨some .scenario, 1, true, false, false, 0⟩
          (jsTrim "Then x is eligible")).1,
       tabDiags c10Doc 2 "Then x is eligible" ++
         (outcomeStep [] c10Doc 2 ⟨some .scenario, 1, true, false, false, 0⟩
           (jsTrim "Then x is eligible")).2) :=
  ⟨c10_confirmed.1 [] c10Doc 3 ⟨some .scenario, 1, true, true, false, 0⟩
      "And payment reduces by 50 cents per dollar over $200"
      "payment reduces by 50 cents per dollar over $200" rfl rfl,
   c10_confirmed.2.2.1 [] c10Doc 2 ⟨some .scenario, 1, true, false, false, 0⟩
      "Then x is eligible" "x is eligible" rfl rfl⟩


/-! ## Validator diagnostic-placement machinery -/

theorem mem_ite_singleton {α : Type} {P : Prop} [Decidable P] {d x : α}
    (hd : d ∈ (if P then [x] else [])) : d = x := by
  split at hd
  · exact List.mem_singleton.mp hd
  · exact absurd hd (List.not_mem_nil d)

theorem tabDiags_line {lines : List String} {idx : ℕ} {l : String} :
    ∀ d ∈ tabDiags lines idx l, d.line = idx + 1 := by
  intro d hd
  unfold tabDiags at hd
  split at hd
  · rw [List.mem_singleton] at hd; subst hd; rfl
  · exact absurd hd (List.not_mem_nil d)

theorem boolSpellDiags_line {c : String} {n : ℕ} {col : ℤ} {lines : List String} {i : ℕ} :
    ∀ d ∈ boolSpellDiags c n col lines i, d.line = n := by
  intro d hd
  unfold boolSpellDiags at hd
  rw [List.mem_filterMap] at hd
  obtain ⟨b, _, hb⟩ := hd
  split at hb
  · exact absurd hb (by simp)
  · rw [Option.some.injEq] at hb; subst hb; rfl

theorem moneyDiags_line {c : String} {n : ℕ} {col : ℤ} {lines : List String} {i : ℕ} :
    ∀ d ∈ moneyDiags c n col lines i, d.line = n := by
  intro d hd
  unfold moneyDiags at hd
  rw [List.mem_filterMap] at hd
  obtain ⟨b, _, hb⟩ := hd
  dsimp only at hb
  split at hb
  · split at hb
    · exact absurd hb (by simp)
    · rw [Option.some.injEq] at hb; subst hb; rfl
  · exact absurd hb (by simp)

theorem validateCondition_line {c : String} {n : ℕ} {col : ℤ} {lines : List String} {i : ℕ} :
    ∀ d ∈ validateCondition c n col lines i, d.line = n := by
  intro d hd
  unfold validateCondition at hd
  dsimp only at hd
  split at hd
  · rw [List.mem_singleton] at hd; subst hd; rfl
  · rcases List.mem_append.mp hd with h1 | h4
    · rcases List.mem_append.mp h1 with h2 | h3
      · rcases List.mem_append.mp h2 with hA | hB
        · rw [mem_ite_singleton hA]
        · rw [mem_ite_singleton hB]
      · exact boolSpellDiags_line d h3
    · exact moneyDiags_line d h4

theorem validateOutcome_line {o : String} {n : ℕ} {col : ℤ} {lines : List String} {i : ℕ}
    {sch : List String} :
    ∀ d ∈ validateOutcome o n col lines i sch, d.line = n := by
  intro d hd
  unfold validateOutcome at hd
  dsimp only at hd
  repeat
    first
    | (exact absurd hd (List.not_mem_nil d))
    | (rw [List.mem_singleton] at hd; subst hd; rfl)
    | (rcases List.mem_append.mp hd with hd | hd)
    | (split at hd)

theorem scenarioHeaderStep_diag {lines : List String} {idx : ℕ} {s : VState}
    {line trimmed : String} :
    ∀ d ∈ (scenarioHeaderStep lines idx s line trimmed).2,
      d.line = idx + 1 ∨ d = missingOutcomeDiag lines s.blockStartLine := by
  intro d hd
  unfold scenarioHeaderStep at hd
  dsimp only at hd
  rcases List.mem_append.mp hd with hd | hd
  · exact Or.inr (mem_ite_singleton hd)
  · repeat
      first
      | (exact absurd hd (List.not_mem_nil d))
      | (rw [List.mem_singleton] at hd; subst hd; left; rfl)
      | (split at hd)

theorem definitionHeaderStep_diag {lines : List String} {idx : ℕ} {s : VState}
    {line trimmed : String} :
    ∀ d ∈ (definitionHeaderStep lines idx s line trimmed).2, d.line = idx + 1 := by
  intro d hd
  unfold definitionHeaderStep at hd
  dsimp only at hd
  rw [mem_ite_singleton hd]

theorem scheduleHeaderStep_diag {lines : List String} {idx : ℕ} {s : VState}
    {line trimmed : String} :
    ∀ d ∈ (scheduleHeaderStep lines idx s line trimmed).2, d.line = idx + 1 := by
  intro d hd
  unfold scheduleHeaderStep at hd
  dsimp only at hd
  rw [mem_ite_singleton hd]

theorem condKeywordStep_diag {lines : List String} {idx : ℕ} {s : VState}
    {trimmed : String} {lsp : ℕ} :
    ∀ d ∈ (condKeywordStep lines idx s trimmed lsp).2, d.line = idx + 1 := by
  intro d hd
  unfold condKeywordStep at hd
  dsimp only at hd
  rcases List.mem_append.mp hd with hd | hd
  · split at hd
    · exact absurd hd (List.not_mem_nil d)
    · exact validateCondition_line d hd
  · rw [mem_ite_singleton hd]

theorem listItemStep_diag {lines : List String} {idx : ℕ} {s : VState}
    {trimmed : String} {lsp : ℕ} :
    ∀ d ∈ (listItemStep lines idx s trimmed lsp).2, d.line = idx + 1 := by
  intro d hd
  unfold listItemStep at hd
  dsimp only at hd
  rcases List.mem_append.mp hd with hd | hd
  · rw [mem_ite_singleton hd]
  · exact validateCondition_line d hd

theorem outcomeStep_diag {sch lines : List String} {idx : ℕ} {s : VState}
    {trimmed : String} :
    ∀ d ∈ (outcomeStep sch lines idx s trimmed).2, d.line = idx + 1 := by
  intro d hd
  unfold outcomeStep at hd
  dsimp only at hd
  rcases List.mem_append.mp hd with hd | hd
  · rw [mem_ite_singleton hd]
  · exact validateOutcome_line d hd

theorem scenarioBodyStep_diag {sch lines : List String} {idx : ℕ} {s : VState}
    {trimmed : String} {lsp : ℕ} :
    ∀ d ∈ (scenarioBodyStep sch lines idx s trimmed lsp).2, d.line = idx + 1 := by
  intro d hd
  unfold scenarioBodyStep at hd
  split at hd
  · exact condKeywordStep_diag d hd
  · split at hd
    · exact listItemStep_diag d hd
    · split at hd
      · exact outcomeStep_diag d hd
      · split at hd
        · dsimp only at hd
          rw [List.mem_singleton] at hd; subst hd; rfl
        · exact absurd hd (List.not_mem_nil d)

theorem scheduleBodyStep_diag {lines : List String} {idx : ℕ} {s : VState}
    {trimmed : String} :
    ∀ d ∈ (scheduleBodyStep lines idx s trimmed).2, d.line = idx + 1 := by
  intro d hd
  unfold scheduleBodyStep at hd
  dsimp only at hd
  repeat
    first
    | (exact absurd hd (List.not_mem_nil d))
    | (rw [List.mem_singleton] at hd; subst hd; rfl)
    | (rcases List.mem_append.mp hd with hd | hd)
    | (split at hd)

theorem vStep_diag {sch lines : List String} {idx : ℕ} {s : VState} {l : String} :
    ∀ d ∈ (vStep sch lines idx s l).2,
      d.line = idx + 1 ∨
      (strStarts (jsTrim l) "Scenario:" = true ∧
       d = missingOutcomeDiag lines s.blockStartLine) := by
  intro d hd
  unfold vStep at hd
  dsimp only at hd
  split at hd
  · exact Or.inl (tabDiags_line d hd)
  · split at hd
    · rcases List.mem_append.mp hd with hd | hd
      · exact Or.inl (tabDiags_line d hd)
      · rcases scenarioHeaderStep_diag d hd with h | h
        · exact Or.inl h
        · right
          exact ⟨by assumption, h⟩
    · split at hd
      · rcases List.mem_append.mp hd with hd | hd
        · exact Or.inl (tabDiags_line d hd)
        · exact Or.inl (definitionHeaderStep_diag d hd)
      · split at hd
        · rcases List.mem_append.mp hd with hd | hd
          · exact Or.inl (tabDiags_line d hd)
          · exact Or.inl (scheduleHeaderStep_diag d hd)
        · split at hd
          · rcases List.mem_append.mp hd with hd | hd
            · exact Or.inl (tabDiags_line d hd)
            · exact Or.inl (scenarioBodyStep_diag d hd)
          · split at hd
            · rcases List.mem_append.mp hd with hd | hd
              · exact Or.inl (tabDiags_line d hd)
              · exact Or.inl (scheduleBodyStep_diag d hd)
            · exact Or.inl (tabDiags_line d hd)

theorem scheduleBodyStep_state {lines : List String} {idx : ℕ} {s : VState}
    {trimmed : String} : (scheduleBodyStep lines idx s trimmed).1 = s := by
  unfold scheduleBodyStep
  dsimp only
  repeat
    first
    | rfl
    | split

theorem vStep_bsl {sch lines : List String} {idx : ℕ} {s : VState} {l : String} :
    (vStep sch lines idx s l).1.blockStartLine = idx + 1 ∨
    (vStep sch lines idx s l).1.blockStartLine = s.blockStartLine := by
  unfold vStep
  dsimp only
  split
  · right; rfl
  · split
    · left; rfl
    · split
      · left; rfl
      · split
        · left; rfl
        · split
          · unfold scenarioBodyStep
            split
            · unfold condKeywordStep
              dsimp only
              split
              · right; rfl
              · right; rfl
            · split
              · right; rfl
              · split
                · right; rfl
                · split
                  · right; rfl
                  · right; rfl
          · split
            · right
              dsimp only
              rw [scheduleBodyStep_state]
            · right; rfl

theorem vStep_scenario_header (sch lines : List String) (idx : ℕ) (s : VState) (l : String)
    (h : strStarts (jsTrim l) "Scenario:" = true) :
    vStep sch lines idx s l =
      ((scenarioHeaderStep lines idx s l (jsTrim l)).1,
       tabDiags lines idx l ++ (scenarioHeaderStep lines idx s l (jsTrim l)).2) := by
  have hne : jsTrim l ≠ "" := by
    intro hemp
    rw [hemp] at h
    exact absurd h (by decide)
  unfold vStep
  simp [h, hne]

theorem headerLine_false {l : String} (h : isHeaderLine l = false) :
    strStarts (jsTrim l) "Scenario:" = false ∧
    strStarts (jsTrim l) "Definition:" = false ∧
    strStarts (jsTrim l) "Schedule:" = false := by
  unfold isHeaderLine at h
  simp only [Bool.or_eq_false_iff] at h
  exact ⟨h.1.1, h.1.2, h.2⟩

theorem outcomeLine_false {l : String} (h : isOutcomeLine l = false) :
    (matchKwWs condKwsV (jsTrim l)).isSome = true ∨
    strStarts (jsTrim l) "- " = true ∨
    (matchKwWs thenKws (jsTrim l)).isSome = false := by
  unfold isOutcomeLine at h
  rcases hc : (matchKwWs condKwsV (jsTrim l)).isSome with _ | _
  · rcases hdash : strStarts (jsTrim l) "- " with _ | _
    · rcases ht : (matchKwWs thenKws (jsTrim l)).isSome with _ | _
      · exact Or.inr (Or.inr rfl)
      · rw [hc, hdash, ht] at h
        exact absurd h (by decide)
    · exact Or.inr (Or.inl rfl)
  · exact Or.inl rfl

theorem vStep_keeps (sch lines : List String) (idx : ℕ) (s : VState) (l : String)
    (hb : s.currentBlock = some .scenario)
    (h1 : strStarts (jsTrim l) "Scenario:" = false)
    (h2 : strStarts (jsTrim l) "Definition:" = false)
    (h3 : strStarts (jsTrim l) "Schedule:" = false)
    (ho : (matchKwWs condKwsV (jsTrim l)).isSome = true ∨
      strStarts (jsTrim l) "- " = true ∨
      (matchKwWs thenKws (jsTrim l)).isSome = false) :
    (vStep sch lines idx s l).1.currentBlock = some .scenario ∧
    (vStep sch lines idx s l).1.blockStartLine = s.blockStartLine ∧
    (vStep sch lines idx s l).1.hasOutcomes = s.hasOutcomes := by
  unfold vStep scenarioBodyStep condKeywordStep listItemStep
  dsimp only
  by_cases hemp : jsTrim l = ""
  · simp [hemp, hb]
  · simp only [hemp, h1, h2, h3, hb, Bool.false_eq_true, if_false, if_true, reduceIte,
      ite_false, ite_true]
    rcases hcv : (matchKwWs condKwsV (jsTrim l)).isSome with _ | _
    · rcases hdash : strStarts (jsTrim l) "- " with _ | _
      · rcases ht : (matchKwWs thenKws (jsTrim l)).isSome with _ | _
        · simp only [hcv, hdash, ht, Bool.false_eq_true, if_false, ite_false, reduceIte]
          split <;> simp [hb]
        · rcases ho with ho | ho | ho
          · exact absurd hcv (by simp [ho])
          · exact absurd hdash (by simp [ho])
          · exact absurd ht (by simp [ho])
      · simp [hcv, hdash, hb]
    · simp only [hcv, if_true, reduceIte, ite_true]
      split <;> simp [hb]

theorem tabDiags_msg {lines : List String} {idx : ℕ} {l : String} :
    ∀ d ∈ tabDiags lines idx l, d.message = tabMsg := by
  intro d hd
  unfold tabDiags at hd
  split at hd
  · rw [List.mem_singleton] at hd; subst hd; rfl
  · exact absurd hd (List.not_mem_nil d)

theorem scenarioHeaderStep_mem {lines : List String} {idx : ℕ} {s : VState}
    {line trimmed : String} :
    ∀ d ∈ (scenarioHeaderStep lines idx s line trimmed).2,
      d = missingOutcomeDiag lines s.blockStartLine ∨
      d.message = "Scenario name is required" ∨
      d.message = "Scenario names should start with a capital letter" := by
  intro d hd
  unfold scenarioHeaderStep at hd
  dsimp only at hd
  rcases List.mem_append.mp hd with hd | hd
  · exact Or.inl (mem_ite_singleton hd)
  · split at hd
    · rw [List.mem_singleton] at hd; subst hd
      exact Or.inr (Or.inl rfl)
    · split at hd
      · rw [List.mem_singleton] at hd; subst hd
        exact Or.inr (Or.inr rfl)
      · exact absurd hd (List.not_mem_nil d)

theorem scenarioHeaderStep_mem_missing {lines : List String} {idx : ℕ} {s : VState}
    {line trimmed : String}
    (hfire : s.currentBlock = some .scenario ∧ ¬s.hasOutcomes = true) :
    missingOutcomeDiag lines s.blockStartLine ∈ (scenarioHeaderStep lines idx s line trimmed).2 := by
  unfold scenarioHeaderStep
  dsimp only
  exact List.mem_append_left _ (by rw [if_pos hfire]; exact List.mem_singleton.mpr rfl)

theorem scenarioHeaderStep_countP1 {lines : List String} {idx : ℕ} {s : VState}
    {line trimmed : String} {p : Diag → Bool}
    (hfire : s.currentBlock = some .scenario ∧ ¬s.hasOutcomes = true)
    (hp : p (missingOutcomeDiag lines s.blockStartLine) = true)
    (hn1 : ∀ d : Diag, d.message = "Scenario name is required" → p d = false)
    (hn2 : ∀ d : Diag, d.message = "Scenario names should start with a capital letter" →
      p d = false) :
    ((scenarioHeaderStep lines idx s line trimmed).2).countP p = 1 := by
  unfold scenarioHeaderStep
  dsimp only
  rw [List.countP_append, if_pos hfire]
  have h1 : List.countP p [missingOutcomeDiag lines s.blockStartLine] = 1 := by
    simp [List.countP_cons, hp]
  rw [h1]
  have h2 : ∀ L : List Diag, (∀ d ∈ L, p d = false) → 1 + List.countP p L = 1 := by
    intro L hL
    have hz : List.countP p L = 0 :=
      List.countP_eq_zero.mpr fun a ha => by rw [hL a ha]; exact Bool.false_ne_true
    omega
  apply h2
  intro d hd
  split at hd
  · rw [List.mem_singleton] at hd; subst hd
    exact hn1 _ rfl
  · split at hd
    · rw [List.mem_singleton] at hd; subst hd
      exact hn2 _ rfl
    · exact absurd hd (List.not_mem_nil d)

theorem scenarioHeaderStep_countP0 {lines : List String} {idx : ℕ} {s : VState}
    {line trimmed : String} {p : Diag → Bool}
    (hprev : p (missingOutcomeDiag lines s.blockStartLine) = false)
    (hn1 : ∀ d : Diag, d.message = "Scenario name is required" → p d = false)
    (hn2 : ∀ d : Diag, d.message = "Scenario names should start with a capital letter" →
      p d = false) :
    ((scenarioHeaderStep lines idx s line trimmed).2).countP p = 0 := by
  rw [List.countP_eq_zero]
  intro d hd
  rcases scenarioHeaderStep_mem d hd with h | h | h
  · rw [h, hprev]; exact Bool.false_ne_true
  · rw [hn1 d h]; exact Bool.false_ne_true
  · rw [hn2 d h]; exact Bool.false_ne_true

theorem finalCheck_diag {lines : List String} {s : VState} :
    ∀ d ∈ finalCheck lines s, d = missingOutcomeDiag lines s.blockStartLine := by
  intro d hd
  unfold finalCheck at hd
  exact mem_ite_singleton hd

theorem vRun_append (sch lines : List String) (xs : List String) :
    ∀ (i : ℕ) (s : VState) (ys : List String),
    vRun sch lines i s (xs ++ ys) =
      ((vRun sch lines (i + xs.length) (vRun sch lines i s xs).1 ys).1,
       (vRun sch lines i s xs).2 ++
         (vRun sch lines (i + xs.length) (vRun sch lines i s xs).1 ys).2) := by
  induction xs with
  | nil => intro i s ys; simp [vRun]
  | cons x xs ih =>
    intro i s ys
    have e1 : vRun sch lines i s (x :: (xs ++ ys)) =
        ((vRun sch lines (i + 1) (vStep sch lines i s x).1 (xs ++ ys)).1,
         (vStep sch lines i s x).2 ++
           (vRun sch lines (i + 1) (vStep sch lines i s x).1 (xs ++ ys)).2) := rfl
    have e2 : vRun sch lines i s (x :: xs) =
        ((vRun sch lines (i + 1) (vStep sch lines i s x).1 xs).1,
         (vStep sch lines i s x).2 ++
           (vRun sch lines (i + 1) (vStep sch lines i s x).1 xs).2) := rfl
    have h : i + (x :: xs).length = i + 1 + xs.length := by
      simp only [List.length_cons]
      omega
    rw [List.cons_append, e1, ih (i + 1) (vStep sch lines i s x).1 ys, e2, h]
    simp [List.append_assoc]

theorem vRun_ub (sch lines : List String) (ls : List String) :
    ∀ (i : ℕ) (s : VState), s.blockStartLine ≤ i →
    (vRun sch lines i s ls).1.blockStartLine ≤ i + ls.length ∧
    ∀ d ∈ (vRun sch lines i s ls).2, d.line ≤ i + ls.length := by
  induction ls with
  | nil =>
    intro i s h
    exact ⟨by simpa [vRun] using h, by simp [vRun]⟩
  | cons x ls ih =>
    intro i s h
    have hstep : (vStep sch lines i s x).1.blockStartLine ≤ i + 1 := by
      rcases @vStep_bsl sch lines i s x with h' | h'
      · omega
      · omega
    obtain ⟨ih1, ih2⟩ := ih (i + 1) (vStep sch lines i s x).1 hstep
    constructor
    · simp only [vRun, List.length_cons]
      omega
    · intro d hd
      simp only [vRun, List.length_cons] at hd ⊢
      rcases List.mem_append.mp hd with hd | hd
      · rcases vStep_diag d hd with h' | ⟨_, h'⟩
        · omega
        · have hl : d.line = s.blockStartLine := by rw [h']; rfl
          omega
      · have := ih2 d hd
        omega

theorem vRun_lb (sch lines : List String) (k : ℕ) (ls : List String) :
    ∀ (i : ℕ) (s : VState), k ≤ s.blockStartLine → k ≤ i + 1 →
    k ≤ (vRun sch lines i s ls).1.blockStartLine ∧
    ∀ d ∈ (vRun sch lines i s ls).2, k ≤ d.line := by
  induction ls with
  | nil =>
    intro i s hs _
    exact ⟨by simpa [vRun] using hs, by simp [vRun]⟩
  | cons x ls ih =>
    intro i s hs hi
    have hstep : k ≤ (vStep sch lines i s x).1.blockStartLine := by
      rcases @vStep_bsl sch lines i s x with h' | h'
      · omega
      · omega
    obtain ⟨ih1, ih2⟩ := ih (i + 1) (vStep sch lines i s x).1 hstep (by omega)
    constructor
    · simpa only [vRun] using ih1
    · intro d hd
      simp only [vRun] at hd
      rcases List.mem_append.mp hd with hd | hd
      · rcases vStep_diag d hd with h' | ⟨_, h'⟩
        · omega
        · have hl : d.line = s.blockStartLine := by rw [h']; rfl
          omega
      · exact ih2 d hd

theorem vRun_keeps (sch lines : List String) (ls : List String) :
    ∀ (i : ℕ) (s : VState), s.currentBlock = some .scenario →
    (∀ b ∈ ls, isHeaderLine b = false ∧ isOutcomeLine b = false) →
    (vRun sch lines i s ls).1.currentBlock = some .scenario ∧
    (vRun sch lines i s ls).1.blockStartLine = s.blockStartLine ∧
    (vRun sch lines i s ls).1.hasOutcomes = s.hasOutcomes ∧
    ∀ d ∈ (vRun sch lines i s ls).2, i + 1 ≤ d.line := by
  induction ls with
  | nil =>
    intro i s hb _
    exact ⟨by simpa [vRun] using hb, by simp [vRun], by simp [vRun], by simp [vRun]⟩
  | cons x ls ih =>
    intro i s hb h
    have hx := h x (List.mem_cons_self x ls)
    have hdr := headerLine_false hx.1
    have ho := outcomeLine_false hx.2
    have hk := vStep_keeps sch lines i s x hb hdr.1 hdr.2.1 hdr.2.2 ho
    obtain ⟨ih1, ih2, ih3, ih4⟩ :=
      ih (i + 1) (vStep sch lines i s x).1 hk.1
        (fun b hbm => h b (List.mem_cons_of_mem x hbm))
    refine ⟨by simpa only [vRun] using ih1,
      by simp only [vRun]; rw [ih2, hk.2.1],
      by simp only [vRun]; rw [ih3, hk.2.2],
      ?_⟩
    intro d hd
    simp only [vRun] at hd
    rcases List.mem_append.mp hd with hd | hd
    · rcases vStep_diag d hd with h' | ⟨hsc, _⟩
      · omega
      · rw [hdr.1] at hsc
        exact absurd hsc Bool.false_ne_true
    · have := ih4 d hd
      omega

theorem pairwise_of_all {α : Type} {r : α → α → Prop} :
    ∀ {l : List α}, (∀ a ∈ l, ∀ b ∈ l, r a b) → l.Pairwise r :=
  fun h => List.pairwise_of_forall_mem_list h

theorem vRun_sorted (sch lines : List String) (ls : List String) :
    ∀ (i : ℕ) (s : VState),
    (∀ d ∈ (vRun sch lines i s ls).2, d.message ≠ missingOutcomeMsg) →
    ((vRun sch lines i s ls).2.Pairwise fun a b => a.line ≤ b.line) ∧
    ∀ d ∈ (vRun sch lines i s ls).2, i + 1 ≤ d.line := by
  induction ls with
  | nil =>
    intro i s _
    exact ⟨by simp [vRun], by simp [vRun]⟩
  | cons x ls ih =>
    intro i s h
    simp only [vRun] at h ⊢
    have hstepline : ∀ d ∈ (vStep sch lines i s x).2, d.line = i + 1 := by
      intro d hd
      rcases vStep_diag d hd with h' | ⟨_, h'⟩
      · exact h'
      · have : d.message = missingOutcomeMsg := by rw [h']; rfl
        exact absurd this (h d (List.mem_append_left _ hd))
    obtain ⟨ih1, ih2⟩ :=
      ih (i + 1) (vStep sch lines i s x).1
        (fun d hd => h d (List.mem_append_right _ hd))
    constructor
    · rw [List.pairwise_append]
      refine ⟨pairwise_of_all ?_, ih1, ?_⟩
      · intro a ha b hb
        rw [hstepline a ha, hstepline b hb]
      · intro a ha b hb
        rw [hstepline a ha]
        have := ih2 b hb
        omega
    · intro d hd
      rcases List.mem_append.mp hd with hd | hd
      · rw [hstepline d hd]
      · have := ih2 d hd
        omega

theorem missingOutcomeDiag_line {lines : List String} {b : ℕ} :
    (missingOutcomeDiag lines b).line = b := rfl

theorem missingOutcomeDiag_msg {lines : List String} {b : ℕ} :
    (missingOutcomeDiag lines b).message = missingOutcomeMsg := rfl

theorem countP_missing_aux (pre body rest : List String) (header : String)
    (hH : strStarts (jsTrim header) "Scenario:" = true)
    (hBody : ∀ b ∈ body, isHeaderLine b = false ∧ isOutcomeLine b = false)
    (hClose : rest = [] ∨ strStarts (jsTrim (rest.headD "")) "Scenario:" = true) :
    (validateLines (pre ++ header :: (body ++ rest))).countP
        (fun d => d.message == missingOutcomeMsg && d.line == pre.length + 1) = 1 ∧
    missingOutcomeDiag (pre ++ header :: (body ++ rest)) (pre.length + 1) ∈
      validateLines (pre ++ header :: (body ++ rest)) := by
  set p : Diag → Bool :=
    fun d => d.message == missingOutcomeMsg && d.line == pre.length + 1 with hpdef
  have hpmiss : ∀ (M : List String) (b : ℕ),
      p (missingOutcomeDiag M b) = (b == pre.length + 1) := by
    intro M b
    simp [hpdef, missingOutcomeDiag]
  have hpline : ∀ d : Diag, d.line ≠ pre.length + 1 → p d = false := by
    intro d h
    simp [hpdef]
    intro _
    exact h
  have hpmsg : ∀ d : Diag, d.message ≠ missingOutcomeMsg → p d = false := by
    intro d h
    simp [hpdef]
    intro hc
    exact absurd hc h
  have hptab : ∀ (M : List String) (idx : ℕ) (l : String),
      (tabDiags M idx l).countP p = 0 := by
    intro M idx l
    rw [List.countP_eq_zero]
    intro d hd
    rw [hpmsg d (by rw [tabDiags_msg d hd]; decide)]
    exact Bool.false_ne_true
  rcases hClose with hre | hre
  · subst hre
    simp only [List.append_nil]
    set L := pre ++ header :: body with hLdef
    set sch := collectSchedules L with hschdef
    have hpre := vRun_ub sch L pre 0 initVState (Nat.le_refl 0)
    have hpre0 : (vRun sch L 0 initVState pre).2.countP p = 0 := by
      rw [List.countP_eq_zero]
      intro d hd
      rw [hpline d (by have := hpre.2 d hd; omega)]
      exact Bool.false_ne_true
    have hopen0 : ((scenarioHeaderStep L pre.length (vRun sch L 0 initVState pre).1 header
        (jsTrim header)).2).countP p = 0 := by
      refine scenarioHeaderStep_countP0 ?_ ?_ ?_
      · rw [hpmiss]
        have := hpre.1
        exact beq_eq_false_iff_ne.mpr (by omega)
      · intro d hd
        exact hpmsg d (by rw [hd]; decide)
      · intro d hd
        exact hpmsg d (by rw [hd]; decide)
    have hbodyrun := vRun_keeps sch L body (pre.length + 1)
      (scenarioHeaderStep L pre.length (vRun sch L 0 initVState pre).1 header
        (jsTrim header)).1 rfl hBody
    have hbody0 : (vRun sch L (pre.length + 1)
        (scenarioHeaderStep L pre.length (vRun sch L 0 initVState pre).1 header
          (jsTrim header)).1 body).2.countP p = 0 := by
      rw [List.countP_eq_zero]
      intro d hd
      rw [hpline d (by have := hbodyrun.2.2.2 d hd; omega)]
      exact Bool.false_ne_true
    have hbodybsl : (vRun sch L (pre.length + 1)
        (scenarioHeaderStep L pre.length (vRun sch L 0 initVState pre).1 header
          (jsTrim header)).1 body).1.blockStartLine = pre.length + 1 := by
      rw [hbodyrun.2.1]
      rfl
    have hbodyout : (vRun sch L (pre.length + 1)
        (scenarioHeaderStep L pre.length (vRun sch L 0 initVState pre).1 header
          (jsTrim header)).1 body).1.hasOutcomes = false := by
      rw [hbodyrun.2.2.1]
      rfl
    have hfc : finalCheck L (vRun sch L (pre.length + 1)
        (scenarioHeaderStep L pre.length (vRun sch L 0 initVState pre).1 header
          (jsTrim header)).1 body).1 = [missingOutcomeDiag L (pre.length + 1)] := by
      unfold finalCheck
      rw [if_pos ⟨hbodyrun.1, by rw [hbodyout]; exact Bool.false_ne_true⟩, hbodybsl]
    unfold validateLines
    rw [← hschdef, vRun_append sch L pre]
    simp only [Nat.zero_add, vRun]
    rw [vStep_scenario_header sch L pre.length _ header hH]
    rw [hfc]
    constructor
    · simp only [List.countP_append, hpre0, hptab, hopen0, hbody0]
      simp [List.countP_cons, hpmiss]
    · exact List.mem_append_right _ (List.mem_singleton.mpr rfl)
  · have hrne : rest ≠ [] := by
      intro h
      rw [h] at hre
      exact absurd hre (by decide)
    obtain ⟨r, rs, hrr⟩ := List.exists_cons_of_ne_nil hrne
    subst hrr
    simp only [List.headD_cons] at hre
    set L := pre ++ header :: (body ++ r :: rs) with hLdef
    set sch := collectSchedules L with hschdef
    have hpre := vRun_ub sch L pre 0 initVState (Nat.le_refl 0)
    have hpre0 : (vRun sch L 0 initVState pre).2.countP p = 0 := by
      rw [List.countP_eq_zero]
      intro d hd
      rw [hpline d (by have := hpre.2 d hd; omega)]
      exact Bool.false_ne_true
    have hopen0 : ((scenarioHeaderStep L pre.length (vRun sch L 0 initVState pre).1 header
        (jsTrim header)).2).countP p = 0 := by
      refine scenarioHeaderStep_countP0 ?_ ?_ ?_
      · rw [hpmiss]
        have := hpre.1
        exact beq_eq_false_iff_ne.mpr (by omega)
      · intro d hd
        exact hpmsg d (by rw [hd]; decide)
      · intro d hd
        exact hpmsg d (by rw [hd]; decide)
    have hbodyrun := vRun_keeps sch L body (pre.length + 1)
      (scenarioHeaderStep L pre.length (vRun sch L 0 initVState pre).1 header
        (jsTrim header)).1 rfl hBody
    have hbody0 : (vRun sch L (pre.length + 1)
        (scenarioHeaderStep L pre.length (vRun sch L 0 initVState pre).1 header
          (jsTrim header)).1 body).2.countP p = 0 := by
      rw [List.countP_eq_zero]
      intro d hd
      rw [hpline d (by have := hbodyrun.2.2.2 d hd; omega)]
      exact Bool.false_ne_true
    have hbodybsl : (vRun sch L (pre.length + 1)
        (scenarioHeaderStep L pre.length (vRun sch L 0 initVState pre).1 header
          (jsTrim header)).1 body).1.blockStartLine = pre.length + 1 := by
      rw [hbodyrun.2.1]
      rfl
    have hbodyout : (vRun sch L (pre.length + 1)
        (scenarioHeaderStep L pre.length (vRun sch L 0 initVState pre).1 header
          (jsTrim header)).1 body).1.hasOutcomes = false := by
      rw [hbodyrun.2.2.1]
      rfl
    have hfire : (vRun sch L (pre.length + 1)
        (scenarioHeaderStep L pre.length (vRun sch L 0 initVState pre).1 header
          (jsTrim header)).1 body).1.currentBlock = some .scenario ∧
        ¬(vRun sch L (pre.length + 1)
          (scenarioHeaderStep L pre.length (vRun sch L 0 initVState pre).1 header
            (jsTrim header)).1 body).1.hasOutcomes = true :=
      ⟨hbodyrun.1, by rw [hbodyout]; exact Bool.false_ne_true⟩
    have hclose1 : ((scenarioHeaderStep L (pre.length + 1 + body.length)
        (vRun sch L (pre.length + 1)
          (scenarioHeaderStep L pre.length (vRun sch L 0 initVState pre).1 header
            (jsTrim header)).1 body).1 r (jsTrim r)).2).countP p = 1 := by
      refine scenarioHeaderStep_countP1 hfire ?_ ?_ ?_
      · rw [hpmiss, hbodybsl]
        exact beq_self_eq_true _
      · intro d hd
        exact hpmsg d (by rw [hd]; decide)
      · intro d hd
        exact hpmsg d (by rw [hd]; decide)
    have hrest := vRun_lb sch L (pre.length + 2) rs (pre.length + 1 + body.length + 1)
      (scenarioHeaderStep L (pre.length + 1 + body.length)
        (vRun sch L (pre.length + 1)
          (scenarioHeaderStep L pre.length (vRun sch L 0 initVState pre).1 header
            (jsTrim header)).1 body).1 r (jsTrim r)).1
      (by
        have : (scenarioHeaderStep L (pre.length + 1 + body.length)
            (vRun sch L (pre.length + 1)
              (scenarioHeaderStep L pre.length (vRun sch L 0 initVState pre).1 header
                (jsTrim header)).1 body).1 r (jsTrim r)).1.blockStartLine =
            pre.length + 1 + body.length + 1 := rfl
        omega)
      (by omega)
    have hrest0 : (vRun sch L (pre.length + 1 + body.length + 1)
        (scenarioHeaderStep L (pre.length + 1 + body.length)
          (vRun sch L (pre.length + 1)
            (scenarioHeaderStep L pre.length (vRun sch L 0 initVState pre).1 header
              (jsTrim header)).1 body).1 r (jsTrim r)).1 rs).2.countP p = 0 := by
      rw [List.countP_eq_zero]
      intro d hd
      rw [hpline d (by have := hrest.2 d hd; omega)]
      exact Bool.false_ne_true
    have hfc0 : (finalCheck L (vRun sch L (pre.length + 1 + body.length + 1)
        (scenarioHeaderStep L (pre.length + 1 + body.length)
          (vRun sch L (pre.length + 1)
            (scenarioHeaderStep L pre.length (vRun sch L 0 initVState pre).1 header
              (jsTrim header)).1 body).1 r (jsTrim r)).1 rs).1).countP p = 0 := by
      rw [List.countP_eq_zero]
      intro d hd
      have hdm := finalCheck_diag d hd
      have hdl : d.line = (vRun sch L (pre.length + 1 + body.length + 1)
          (scenarioHeaderStep L (pre.length + 1 + body.length)
            (vRun sch L (pre.length + 1)
              (scenarioHeaderStep L pre.length (vRun sch L 0 initVState pre).1 header
                (jsTrim header)).1 body).1 r (jsTrim r)).1 rs).1.blockStartLine := by
        rw [hdm]
        rfl
      rw [hpline d (by have := hrest.1; omega)]
      exact Bool.false_ne_true
    have hmem := @scenarioHeaderStep_mem_missing L (pre.length + 1 + body.length) _
      r (jsTrim r) hfire
    rw [hbodybsl] at hmem
    unfold validateLines
    rw [← hschdef, vRun_append sch L pre]
    simp only [Nat.zero_add, vRun]
    rw [vStep_scenario_header sch L pre.length _ header hH]
    rw [vRun_append sch L body]
    simp only [vRun]
    rw [vStep_scenario_header sch L (pre.length + 1 + body.length) _ r hre]
    constructor
    · simp only [List.countP_append, hpre0, hptab, hopen0, hbody0, hclose1, hrest0, hfc0]
    · refine List.mem_append_left _ ?_
      refine List.mem_append_right _ ?_
      refine List.mem_append_right _ ?_
      refine List.mem_append_right _ ?_
      refine List.mem_append_left _ ?_
      exact List.mem_append_right _ hmem

/-- C5: a scenario block containing no outcome-dispatched line (no `Then` or
bare `And`/list-free outcome line), closed either by the next `Scenario:`
header or by the end of the document, yields exactly one diagnostic carrying
the missing-outcome message at line `pre.length + 1` — the scenario's own
header line — and that diagnostic has severity `error`. -/
theorem c5_confirmed (pre body rest : List String) (header : String)
    (hH : strStarts (jsTrim header) "Scenario:" = true)
    (hBody : ∀ b ∈ body, isHeaderLine b = false ∧ isOutcomeLine b = false)
    (hClose : rest = [] ∨ strStarts (jsTrim (rest.headD "")) "Scenario:" = true) :
    (validateLines (pre ++ header :: (body ++ rest))).countP
        (fun d => d.message == missingOutcomeMsg && d.line == pre.length + 1) = 1 ∧
    missingOutcomeDiag (pre ++ header :: (body ++ rest)) (pre.length + 1) ∈
      validateLines (pre ++ header :: (body ++ rest)) ∧
    (missingOutcomeDiag (pre ++ header :: (body ++ rest)) (pre.length + 1)).severity =
      .error ∧
    (missingOutcomeDiag (pre ++ header :: (body ++ rest)) (pre.length + 1)).line =
      pre.length + 1 := by
  obtain ⟨h1, h2⟩ := countP_missing_aux pre body rest header hH hBody hClose
  exact ⟨h1, h2, rfl, rfl⟩

theorem c5_witness :
    (validateLines (([] : List String) ++ "Scenario: A" :: (["When age > 5"] ++ []))).countP
        (fun d => d.message == missingOutcomeMsg &&
          d.line == ([] : List String).length + 1) = 1 ∧
    missingOutcomeDiag (([] : List String) ++ "Scenario: A" :: (["When age > 5"] ++ []))
        (([] : List String).length + 1) ∈
      validateLines (([] : List String) ++ "Scenario: A" :: (["When age > 5"] ++ [])) ∧
    (missingOutcomeDiag (([] : List String) ++ "Scenario: A" :: (["When age > 5"] ++ []))
        (([] : List String).length + 1)).severity = .error ∧
    (missingOutcomeDiag (([] : List String) ++ "Scenario: A" :: (["When age > 5"] ++ []))
        (([] : List String).length + 1)).line = ([] : List String).length + 1 :=
  c5_confirmed [] ["When age > 5"] [] "Scenario: A" rfl (by decide) (Or.inl rfl)

/-- C7 (amended): when no missing-outcome diagnostic is produced, the
diagnostic list follows document line order; the missing-outcome diagnostics
(emitted at the closing header or at end of document but anchored at the
scenario's opening line) are the only out-of-order entries. -/
theorem c7_amended (lines : List String)
    (h : ∀ d ∈ validateLines lines, d.message ≠ missingOutcomeMsg) :
    (validateLines lines).Pairwise fun a b => a.line ≤ b.line := by
  unfold validateLines at h ⊢
  have hfc : finalCheck lines
      (vRun (collectSchedules lines) lines 0 initVState lines).1 = [] := by
    rcases hfc2 : finalCheck lines
        (vRun (collectSchedules lines) lines 0 initVState lines).1 with _ | ⟨d, ds⟩
    · rfl
    · exfalso
      have hd : d ∈ finalCheck lines
          (vRun (collectSchedules lines) lines 0 initVState lines).1 := by
        rw [hfc2]
        exact List.mem_cons_self d ds
      apply h d (List.mem_append_right _ hd)
      rw [finalCheck_diag d hd]
      rfl
  rw [hfc, List.append_nil] at h ⊢
  exact (vRun_sorted (collectSchedules lines) lines lines 0 initVState h).1

theorem c7_amended_witness :
    (validateLines c7DocW).Pairwise fun a b => a.line ≤ b.line :=
  c7_amended c7DocW (by decide)

theorem outcomeStep_eq {sch lines : List String} {idx : ℕ} {s : VState}
    {trimmed rest : String}
    (h : matchKwWs thenKws trimmed = some ("Then", rest)) :
    outcomeStep sch lines idx s trimmed =
      ({ s with hasOutcomes := true, expectingListItems := false },
       (if ¬s.hasConditions = true then
          [⟨idx + 1, 1, outcomesAfterCondMsg, .error,
            getOffset lines idx 0, getOffset lines idx 4⟩]
        else []) ++
         validateOutcome rest (idx + 1) (jsIndexOf trimmed rest + 1) lines idx sch) := by
  unfold outcomeStep
  rw [h]
  rfl

theorem validateOutcome_sched_mem {outcome : String} {n : ℕ} {col : ℤ}
    {lines sch : List String} {i : ℕ} {cap : String}
    (he1 : matchEligEq outcome.data = none)
    (he2 : matchEligIs "eligible" outcome.data = none)
    (he3 : matchEligIs "yes" outcome.data = none)
    (he4 : matchEligIs "true" outcome.data = none)
    (hpay : matchPaymentSimple outcome.data = false)
    (hbase : matchBaseRate outcome.data = false)
    (hsched : matchScheduleRef outcome.data = some cap)
    (hnotin : jsTrim cap ∉ sch) :
    ∃ d ∈ validateOutcome outcome n col lines i sch,
      d.line = n ∧ d.severity = .error ∧
      d.message = "Schedule \x27" ++ jsTrim cap ++ "\x27 not defined" := by
  unfold validateOutcome
  rw [he1, he2, he3, he4, hpay, hbase, hsched]
  simp only [Option.isSome_none, Option.isSome_some, Bool.false_eq_true, or_self,
    or_false, false_or, if_false, if_true, ite_true, ite_false, reduceIte]
  rw [if_pos hnotin]
  exact ⟨_, List.mem_singleton.mpr rfl, rfl, rfl, rfl⟩

/-- C6 (amended): an outcome line `Then ... rate is determined by N` inside a
scenario draws an error diagnostic naming the undeclared schedule `N`,
provided the outcome also matches none of the eligibility, payment-amount or
base-rate patterns that are tested first (otherwise those branches swallow
the line and no schedule check happens). -/
theorem c6_amended (pre post : List String) (l rest cap : String)
    (hb : (vRun (collectSchedules (pre ++ l :: post)) (pre ++ l :: post) 0 initVState
      pre).1.currentBlock = some .scenario)
    (hthen : matchKwWs thenKws (jsTrim l) = some ("Then", rest))
    (he1 : matchEligEq rest.data = none)
    (he2 : matchEligIs "eligible" rest.data = none)
    (he3 : matchEligIs "yes" rest.data = none)
    (he4 : matchEligIs "true" rest.data = none)
    (hpay : matchPaymentSimple rest.data = false)
    (hbase : matchBaseRate rest.data = false)
    (hsched : matchScheduleRef rest.data = some cap)
    (hnotin : jsTrim cap ∉ collectSchedules (pre ++ l :: post)) :
    ∃ d ∈ validateLines (pre ++ l :: post),
      d.line = pre.length + 1 ∧ d.severity = .error ∧
      d.message = "Schedule \x27" ++ jsTrim cap ++ "\x27 not defined" := by
  set L := pre ++ l :: post with hLdef
  set sch := collectSchedules L with hschdef
  unfold validateLines
  rw [← hschdef, vRun_append sch L pre]
  simp only [Nat.zero_add, vRun]
  rw [vStep_then_line sch L pre.length _ l rest hb hthen]
  rw [outcomeStep_eq hthen]
  obtain ⟨d, hd, hP⟩ :=
    @validateOutcome_sched_mem rest (pre.length + 1)
      (jsIndexOf (jsTrim l) rest + 1) L sch pre.length cap
      he1 he2 he3 he4 hpay hbase hsched hnotin
  refine ⟨d, ?_, hP⟩
  refine List.mem_append_left _ ?_
  refine List.mem_append_right _ ?_
  refine List.mem_append_left _ ?_
  refine List.mem_append_right _ ?_
  exact List.mem_append_right _ hd

theorem c6_amended_witness :
    ∃ d ∈ validateLines (["Scenario: S", "When age > 5"] ++
        "Then rate is determined by Missing Schedule" :: []),
      d.line = ["Scenario: S", "When age > 5"].length + 1 ∧ d.severity = .error ∧
      d.message = "Schedule \x27" ++ jsTrim "Missing Schedule" ++ "\x27 not defined" :=
  c6_amended ["Scenario: S", "When age > 5"] [] "Then rate is determined by Missing Schedule"
    "rate is determined by Missing Schedule" "Missing Schedule"
    rfl rfl rfl rfl rfl rfl rfl rfl rfl (by decide)

end CourgetteRules
